import Mathlib

/-!
Verification of the OCR document-to-record reconciliation pipeline
(sdp-ocr-back).  Python strings are modelled as `List Char`; machine-level
details that the pipeline does not rely on (unicode case folding beyond the
characters appearing in the data tables, SQL collations) are modelled at the
precision the verified properties need.  Fallible Python expressions
(indexing that can raise `IndexError`) are modelled with `Except`.
-/

namespace SDP

/-- Python whitespace for `str.strip` / `\s` (space, tab, LF, CR, FF, VT). -/
def isPyWs (c : Char) : Bool :=
  c = ' ' || c = '\t' || c = '\n' || c = '\r' || c = '\x0b' || c = '\x0c'

/-- Regex word character `\w` (ASCII letters, digits, underscore). -/
def isWordChar (c : Char) : Bool :=
  ('a' ≤ c && c ≤ 'z') || ('A' ≤ c && c ≤ 'Z') || ('0' ≤ c && c ≤ '9') || c = '_'

/-- ASCII digit test, the `\d` class on the texts handled here. -/
def isDigitChar (c : Char) : Bool := '0' ≤ c && c ≤ '9'

/-- ASCII letter test, the `[A-Za-z]` class. -/
def isLetterChar (c : Char) : Bool := ('a' ≤ c && c ≤ 'z') || ('A' ≤ c && c ≤ 'Z')

/-- Python `str.lower()` restricted to ASCII plus the non-ASCII characters
occurring in the repository's data tables and source literals. -/
def pyLower (c : Char) : Char :=
  if 'A' ≤ c && c ≤ 'Z' then Char.ofNat (c.toNat + 32)
  else if c = 'É' then 'é'
  else if c = 'È' then 'è'
  else if c = 'Ô' then 'ô'
  else if c = 'Ï' then 'ï'
  else if c = 'Ã' then 'ã'
  else if c = 'Ä' then 'ä'
  else if c = 'Đ' then 'đ'
  else if c = 'Ŧ' then 'ŧ'
  else c

/-- Python `str.upper()` restricted in the same way. -/
def pyUpper (c : Char) : Char :=
  if 'a' ≤ c && c ≤ 'z' then Char.ofNat (c.toNat - 32)
  else if c = 'é' then 'É'
  else if c = 'è' then 'È'
  else if c = 'ô' then 'Ô'
  else if c = 'ï' then 'Ï'
  else if c = 'ã' then 'Ã'
  else if c = 'ä' then 'Ä'
  else if c = 'đ' then 'Đ'
  else if c = 'ŧ' then 'Ŧ'
  else c

/-- Python `str.isalpha()` on the ASCII strings this code paths sees. -/
def pyIsAlpha (s : List Char) : Bool :=
  !s.isEmpty && s.all isLetterChar

def lowerStr (s : List Char) : List Char := s.map pyLower

def upperStr (s : List Char) : List Char := s.map pyUpper

/-- Python `str.strip()` (trim whitespace at both ends). -/
def pyStrip (s : List Char) : List Char :=
  ((s.dropWhile isPyWs).reverse.dropWhile isPyWs).reverse

/-- Python `str.lstrip(cs)`: drop leading characters belonging to `cs`. -/
def pyLstrip (cs : List Char) (s : List Char) : List Char :=
  s.dropWhile (fun c => cs.contains c)

/-- Python single-character `str.replace(old, new)`. -/
def pyReplace (old new : Char) (s : List Char) : List Char :=
  s.map (fun c => if c = old then new else c)

/-- Split at the LAST occurrence of `sep` (Python `s.rsplit(sep, 1)` when
`sep` occurs); `none` when `sep` is absent. -/
def rsplit1 (sep : Char) (s : List Char) : Option (List Char × List Char) :=
  let rev := s.reverse
  let after := rev.takeWhile (fun c => c ≠ sep)
  if after.length = rev.length then none
  else some (((rev.drop (after.length + 1)).reverse), after.reverse)

/-- Python `s.split(sep)` (full split on a single-character separator). -/
def pySplitAll (sep : Char) (s : List Char) : List (List Char) :=
  match s with
  | [] => [[]]
  | c :: rest =>
    let r := pySplitAll sep rest
    if c = sep then [] :: r
    else
      match r with
      | [] => [[c]]
      | h :: t => (c :: h) :: t

/-- Substring containment, Python's `needle in haystack`. -/
def strContains (haystack needle : List Char) : Bool :=
  if needle.isPrefixOf haystack then true
  else match haystack with
    | [] => false
    | _ :: t => strContains t needle

/-- Leftmost index at which `needle` occurs in `haystack` (`str.find`);
`none` when absent. -/
def strFind (haystack needle : List Char) : Option Nat :=
  let rec go (h : List Char) (i : Nat) : Option Nat :=
    if needle.isPrefixOf h then some i
    else match h with
      | [] => none
      | _ :: t => go t (i + 1)
  go haystack 0

/-- Render a natural number in decimal (used for ids and zero-padding). -/
def natDigits (n : Nat) : List Char := (Nat.toDigits 10 n)

/-- Python `f"{n:03d}"`: decimal, left-padded with zeros to width 3. -/
def pad3 (n : Nat) : List Char :=
  let d := natDigits n
  List.replicate (3 - d.length) '0' ++ d

/-- Python `f"{n:02d}"`. -/
def pad2 (n : Nat) : List Char :=
  let d := natDigits n
  List.replicate (2 - d.length) '0' ++ d

/-- Python `int` on a string of decimal digits. -/
def toNatDigits (s : List Char) : Nat :=
  s.foldl (fun acc c => acc * 10 + (c.toNat - '0'.toNat)) 0

/-- `String.intercalate` over `List Char` pieces. -/
def joinSep (sep : List Char) : List (List Char) → List Char
  | [] => []
  | [x] => x
  | x :: xs => x ++ sep ++ joinSep sep xs

end SDP

namespace SDP

/-! ## Levenshtein distance (EmailDomainCorrector / CountryCorrector) -/

/-- One inner loop of the DP in `levenshtein_distance`: given `c1`, the
remaining characters of `s2`, the rest of the previous row and the last value
appended to the current row, produce the tail of the current row (the
`current_row.append(...)` loop). -/
def lev_go (c1 : Char) : List Char → List Nat → Nat → List Nat
  | [], _, last => [last]
  | c2 :: cs, p0 :: p1 :: ps, last =>
    let insertions := p1 + 1
    let deletions := last + 1
    let substitutions := p0 + (if c1 ≠ c2 then 1 else 0)
    let v := min insertions (min deletions substitutions)
    last :: lev_go c1 cs (p1 :: ps) v
  | _ :: _, _, last => [last]

/-- The outer `for i, c1 in enumerate(s1)` loop: thread the previous row. -/
def lev_rows (s2 : List Char) : List Char → Nat → List Nat → List Nat
  | [], _, prev => prev
  | c1 :: cs, i, prev => lev_rows s2 cs (i + 1) (lev_go c1 s2 prev (i + 1))

/-- DP core of `levenshtein_distance` (after the swap guard). -/
def lev_core (s1 s2 : List Char) : Nat :=
  if s2.length = 0 then s1.length
  else ((lev_rows s2 s1 0 (List.range (s2.length + 1))).getLast?).getD 0

/-- `EmailDomainCorrector.levenshtein_distance` (identical code in
`CountryCorrector`): swap so the first argument is the longer one, then DP. -/
def levenshtein_distance (s1 s2 : List Char) : Nat :=
  if s1.length < s2.length then lev_core s2 s1 else lev_core s1 s2

/-! ## EmailDomainCorrector (`app/services/email_domain_corrector.py`) -/

/-- `EmailDomainCorrector.POPULAR_EXTENSIONS`. -/
def POPULAR_EXTENSIONS : List (List Char) :=
  ["com".data, "fr".data, "net".data, "org".data, "eu".data, "be".data,
   "ch".data, "de".data, "uk".data, "it".data, "es".data, "ca".data,
   "co.uk".data, "com.fr".data]

/-- `EmailDomainCorrector.POPULAR_DOMAINS`. -/
def POPULAR_DOMAINS : List (List Char) :=
  ["gmail.com".data, "googlemail.com".data,
   "hotmail.com".data, "hotmail.fr".data, "outlook.com".data, "outlook.fr".data,
   "live.com".data, "live.fr".data, "msn.com".data,
   "yahoo.com".data, "yahoo.fr".data, "ymail.com".data,
   "orange.fr".data, "wanadoo.fr".data,
   "free.fr".data,
   "sfr.fr".data, "neuf.fr".data,
   "icloud.com".data, "me.com".data, "mac.com".data,
   "protonmail.com".data, "proton.me".data,
   "laposte.net".data, "aol.com".data]

/-- `EmailDomainCorrector.is_likely_typo`. -/
def is_likely_typo (domain : List Char) (distance : Nat) : Bool :=
  if distance = 1 then true
  else if domain.contains '-' then false
  else if domain.length > 20 then false
  else if distance ≤ 2 then true
  else false

/-- One iteration of the best-candidate search loop shared by
`suggest_domain` and `suggest_extension`: keep the first strictly-better
match within `max_distance`. -/
def bestStep (target : List Char) (max_distance : Nat)
    (best : Option (List Char × Nat)) (cand : List Char) :
    Option (List Char × Nat) :=
  let distance := levenshtein_distance target cand
  match best with
  | none => if distance ≤ max_distance then some (cand, distance) else best
  | some (_, bd) =>
    if distance ≤ max_distance && distance < bd then some (cand, distance) else best

/-- The best-candidate search loop shared by `suggest_domain` and
`suggest_extension`: fold over the candidate list with `bestStep`. -/
def bestCandidate (target : List Char) (max_distance : Nat)
    (candidates : List (List Char)) : Option (List Char × Nat) :=
  candidates.foldl (bestStep target max_distance) none

/-- `EmailDomainCorrector.suggest_domain` (default `max_distance = 2`). -/
def suggest_domain (domain : List Char) : Option (List Char) :=
  let domain_lower := pyStrip (lowerStr domain)
  if POPULAR_DOMAINS.contains domain_lower then none
  else
    match bestCandidate domain_lower 2 POPULAR_DOMAINS with
    | some (best_match, best_distance) =>
      if is_likely_typo domain_lower best_distance then some best_match else none
    | none => none

/-- `EmailDomainCorrector.suggest_extension` (default `max_distance = 1`). -/
def suggest_extension (extension : List Char) : Option (List Char) :=
  let extension_lower := pyStrip (lowerStr extension)
  if POPULAR_EXTENSIONS.contains extension_lower then none
  else
    match bestCandidate extension_lower 1 POPULAR_EXTENSIONS with
    | some (best_match, _) => some best_match
    | none => none

/-- `EmailDomainCorrector.fix_punctuation`: replace `,`/`;`/`:` by `.` in the
domain part (text after the last `@`). -/
def fix_punctuation (email : List Char) : List Char × Bool :=
  if email.contains '@' then
    match rsplit1 '@' email with
    | some (local_part, domain) =>
      let f1 := domain.contains ','
      let d1 := pyReplace ',' '.' domain
      let f2 := d1.contains ';'
      let d2 := pyReplace ';' '.' d1
      let f3 := d2.contains ':'
      let d3 := pyReplace ':' '.' d2
      if f1 || f2 || f3 then (local_part ++ '@' :: d3, true) else (email, false)
    | none => (email, false)
  else (email, false)

/-- The extension-correction step of `correct_email` (its Étape 2), acting on
the domain: if the domain has a `.`, try to correct the final extension. -/
def ext_step (domain : List Char) : List Char × Bool :=
  if domain.contains '.' then
    match rsplit1 '.' domain with
    | some (domain_name, extension) =>
      match suggest_extension extension with
      | some suggested => (domain_name ++ '.' :: suggested, true)
      | none => (domain, false)
    | none => (domain, false)
  else (domain, false)

/-- Python `original_email.split('@')[1]`, which raises `IndexError` when the
string has no `@`. -/
def splitAt1 (s : List Char) : Except (List Char) (List Char) :=
  match (pySplitAll '@' s).get? 1 with
  | some x => .ok x
  | none => .error "IndexError".data

/-- `EmailDomainCorrector.correct_email`.  The `Except` layer models the
Python expressions `original_email.split('@')[1]` that would raise
`IndexError` if evaluated on an `@`-less string. -/
def correct_email (email : List Char) :
    Except (List Char) (List Char × Bool × Option (List Char)) := do
  let original_email := email
  -- Étape 1 : ponctuation
  let (email, punct_corrected) := fix_punctuation email
  let was_corrected := punct_corrected
  if !email.contains '@' then
    if was_corrected then
      let d ← splitAt1 original_email
      return (email, was_corrected, some d)
    else
      return (email, was_corrected, none)
  else
    match rsplit1 '@' email with
    | none => return (email, was_corrected, none)   -- unreachable: '@' ∈ email
    | some (local_part, domain0) =>
      -- Étape 2 : extension
      let (domain, ext_corrected) := ext_step domain0
      let email := if ext_corrected then local_part ++ '@' :: domain else email
      let was_corrected := was_corrected || ext_corrected
      -- Étape 3 : domaine complet
      match suggest_domain domain with
      | some suggested_domain =>
        let corrected_email := local_part ++ '@' :: suggested_domain
        if original_email.contains '@' then
          let d ← splitAt1 original_email
          return (corrected_email, true, some d)
        else
          return (corrected_email, true, none)
      | none =>
        if was_corrected then
          if original_email.contains '@' then
            let d ← splitAt1 original_email
            return (email, true, some d)
          else
            return (email, true, none)
        else
          return (email, false, none)

/-- First component of `correct_email` (the possibly-corrected email string);
the `.error` fallback is dead code by `correct_email_total`. -/
def correctEmailFst (email : List Char) : List Char :=
  match correct_email email with
  | .ok (e, _, _) => e
  | .error _ => email

end SDP

namespace SDP

/-! ## PhoneValidator (`app/services/phone/phone_validator.py`) -/

/-- One entry of `PhoneValidator.PHONE_RULES`.  The `'format'` template
`"\x7b\x7d \x7b\x7d ..."` is represented by its number of placeholders and the
separator between them. -/
structure PhoneRule where
  min_digits : Nat
  max_digits : Nat
  placeholders : Nat
  sep : List Char
  chunk_sizes : List Nat
  chunk_sizes_10 : Option (List Nat)
  deriving Repr, DecidableEq

/-- `PhoneValidator.PHONE_RULES` (dict lookup by country name). -/
def PHONE_RULES (country : List Char) : Option PhoneRule :=
  if country = "France".data then
    some ⟨10, 10, 5, " ".data, [2, 2, 2, 2, 2], none⟩
  else if country = "Belgique".data then
    some ⟨9, 10, 4, " ".data, [3, 2, 2, 2], some [2, 2, 2, 2, 2]⟩
  else if country = "Suisse".data then
    some ⟨9, 10, 4, " ".data, [3, 3, 2, 2], none⟩
  else if country = "États-Unis".data then
    some ⟨10, 10, 3, "-".data, [3, 3, 4], none⟩
  else if country = "Canada".data then
    some ⟨10, 10, 3, "-".data, [3, 3, 4], none⟩
  else if country = "Royaume-Uni".data then
    some ⟨10, 11, 3, " ".data, [4, 3, 4], none⟩
  else if country = "Allemagne".data then
    some ⟨10, 11, 3, " ".data, [3, 3, 4], none⟩
  else if country = "Espagne".data then
    some ⟨9, 9, 4, " ".data, [3, 2, 2, 2], none⟩
  else if country = "Italie".data then
    some ⟨9, 10, 3, " ".data, [3, 3, 3], none⟩
  else if country = "Portugal".data then
    some ⟨9, 9, 4, " ".data, [3, 2, 2, 2], none⟩
  else if country = "Pays-Bas".data then
    some ⟨9, 10, 3, " ".data, [2, 3, 4], none⟩
  else if country = "Maroc".data then
    some ⟨9, 10, 4, " ".data, [4, 2, 2, 2], none⟩
  else if country = "Algérie".data then
    some ⟨9, 10, 4, " ".data, [4, 2, 2, 2], none⟩
  else if country = "Tunisie".data then
    some ⟨8, 8, 3, " ".data, [2, 3, 3], none⟩
  else none

/-- `PhoneValidator.clean_phone_number`: keep only digits. -/
def clean_phone_number (phone : List Char) : List Char :=
  if phone.isEmpty then [] else phone.filter isDigitChar

/-- The chunking loop of `format_phone_number`: cut `digits` following
`chunk_sizes`, then append any leftover digits to the last chunk. -/
def buildChunks (digits : List Char) (chunk_sizes : List Nat) : List (List Char) :=
  let st :=
    chunk_sizes.foldl
      (fun (acc : List (List Char) × Nat) size =>
        if acc.2 + size ≤ digits.length then
          (acc.1 ++ [(digits.drop acc.2).take size], acc.2 + size)
        else acc)
      ([], 0)
  if st.2 < digits.length then
    match st.1 with
    | [] => [digits.drop st.2]
    | chunks => chunks.dropLast ++ [chunks.getLastD [] ++ digits.drop st.2]
  else st.1

/-- Python `str.format(*chunks)` for a template of `n` placeholders joined by
`sep`: `IndexError` (→ `none`) when there are fewer chunks than placeholders;
extra chunks are silently ignored. -/
def pyFormat (n : Nat) (sep : List Char) (chunks : List (List Char)) : Option (List Char) :=
  if chunks.length < n then none else some (joinSep sep (chunks.take n))

/-- `PhoneValidator.format_phone_number`. -/
def format_phone_number (digits : List Char) (country : List Char) : List Char :=
  if digits.isEmpty || country.isEmpty then digits
  else
    match PHONE_RULES country with
    | none => digits
    | some rules =>
      let chunk_sizes :=
        if country = "Belgique".data && digits.length = 10 then
          rules.chunk_sizes_10.getD rules.chunk_sizes
        else rules.chunk_sizes
      let chunks := buildChunks digits chunk_sizes
      match pyFormat rules.placeholders rules.sep chunks with
      | some formatted => formatted
      | none => digits

/-- `PhoneValidator.validate_phone_number`. -/
def validate_phone_number (phone : List Char) (country : Option (List Char)) :
    Option (List Char) × Bool × Option (List Char) :=
  if phone.isEmpty then (none, false, none)
  else
    let cleaned := clean_phone_number phone
    if cleaned.isEmpty then (none, false, none)
    else
      match country with
      | none => (some cleaned, false, some "no_country".data)
      | some c =>
        if c.isEmpty then (some cleaned, false, some "no_country".data)
        else
          match PHONE_RULES c with
          | none => (some cleaned, false, some "no_country".data)
          | some rules =>
            if cleaned.length < rules.min_digits || rules.max_digits < cleaned.length then
              (none, false, some "invalid_length".data)
            else
              let formatted := format_phone_number cleaned c
              (some formatted, !(phone == formatted), none)

/-! ## CountryCorrector (`app/services/country/country_corrector.py`) -/

/-- `CountryCorrector.COUNTRY_CODES` (association list in source order). -/
def COUNTRY_CODES : List (List Char × List Char) :=
  [("FR".data, "France".data), ("BE".data, "Belgique".data),
   ("CH".data, "Suisse".data), ("DE".data, "Allemagne".data),
   ("IT".data, "Italie".data), ("ES".data, "Espagne".data),
   ("PT".data, "Portugal".data), ("GB".data, "Royaume-Uni".data),
   ("UK".data, "Royaume-Uni".data), ("IE".data, "Irlande".data),
   ("NL".data, "Pays-Bas".data), ("LU".data, "Luxembourg".data),
   ("AT".data, "Autriche".data), ("GR".data, "Grèce".data),
   ("PL".data, "Pologne".data), ("SE".data, "Suède".data),
   ("NO".data, "Norvège".data), ("DK".data, "Danemark".data),
   ("FI".data, "Finlande".data), ("CZ".data, "République tchèque".data),
   ("HU".data, "Hongrie".data), ("RO".data, "Roumanie".data),
   ("BG".data, "Bulgarie".data), ("HR".data, "Croatie".data),
   ("SI".data, "Slovénie".data), ("SK".data, "Slovaquie".data),
   ("EE".data, "Estonie".data), ("LV".data, "Lettonie".data),
   ("LT".data, "Lituanie".data), ("CY".data, "Chypre".data),
   ("MT".data, "Malte".data),
   ("US".data, "États-Unis".data), ("USA".data, "États-Unis".data),
   ("CA".data, "Canada".data), ("MX".data, "Mexique".data),
   ("BR".data, "Brésil".data), ("AR".data, "Argentine".data),
   ("CL".data, "Chili".data), ("CO".data, "Colombie".data),
   ("PE".data, "Pérou".data), ("VE".data, "Venezuela".data),
   ("CN".data, "Chine".data), ("JP".data, "Japon".data),
   ("IN".data, "Inde".data), ("KR".data, "Corée du Sud".data),
   ("TH".data, "Thaïlande".data), ("VN".data, "Vietnam".data),
   ("ID".data, "Indonésie".data), ("MY".data, "Malaisie".data),
   ("SG".data, "Singapour".data), ("PH".data, "Philippines".data),
   ("PK".data, "Pakistan".data), ("BD".data, "Bangladesh".data),
   ("AE".data, "Émirats arabes unis".data), ("SA".data, "Arabie saoudite".data),
   ("IL".data, "Israël".data), ("TR".data, "Turquie".data),
   ("MA".data, "Maroc".data), ("DZ".data, "Algérie".data),
   ("TN".data, "Tunisie".data), ("EG".data, "Égypte".data),
   ("ZA".data, "Afrique du Sud".data), ("NG".data, "Nigeria".data),
   ("KE".data, "Kenya".data), ("GH".data, "Ghana".data),
   ("SN".data, "Sénégal".data), ("CI".data, "Côte d\x27Ivoire".data),
   ("AU".data, "Australie".data), ("NZ".data, "Nouvelle-Zélande".data)]

/-- `CountryCorrector.VALID_COUNTRIES`. -/
def VALID_COUNTRIES : List (List Char) :=
  ["France".data, "Belgique".data, "Suisse".data, "Allemagne".data,
   "Italie".data, "Espagne".data, "Portugal".data, "Royaume-Uni".data,
   "Irlande".data, "Pays-Bas".data, "Luxembourg".data, "Autriche".data,
   "Grèce".data, "Pologne".data, "Suède".data, "Norvège".data,
   "Danemark".data, "Finlande".data, "République tchèque".data,
   "Hongrie".data, "Roumanie".data, "Bulgarie".data, "Croatie".data,
   "Slovénie".data, "Slovaquie".data, "Estonie".data, "Lettonie".data,
   "Lituanie".data, "Chypre".data, "Malte".data,
   "États-Unis".data, "Canada".data, "Mexique".data, "Brésil".data,
   "Argentine".data, "Chili".data, "Colombie".data, "Pérou".data,
   "Venezuela".data,
   "Chine".data, "Japon".data, "Inde".data, "Corée du Sud".data,
   "Thaïlande".data, "Vietnam".data, "Indonésie".data, "Malaisie".data,
   "Singapour".data, "Philippines".data, "Pakistan".data, "Bangladesh".data,
   "Émirats arabes unis".data, "Arabie saoudite".data, "Israël".data,
   "Turquie".data,
   "Maroc".data, "Algérie".data, "Tunisie".data, "Égypte".data,
   "Afrique du Sud".data, "Nigeria".data, "Kenya".data, "Ghana".data,
   "Sénégal".data, "Côte d\x27Ivoire".data,
   "Australie".data, "Nouvelle-Zélande".data]

/-- `CountryCorrector.COUNTRY_VARIANTS`. -/
def COUNTRY_VARIANTS : List (List Char × List Char) :=
  [("united states".data, "États-Unis".data),
   ("united states of america".data, "États-Unis".data),
   ("usa".data, "États-Unis".data),
   ("united kingdom".data, "Royaume-Uni".data),
   ("great britain".data, "Royaume-Uni".data),
   ("england".data, "Royaume-Uni".data),
   ("scotland".data, "Royaume-Uni".data),
   ("wales".data, "Royaume-Uni".data),
   ("netherlands".data, "Pays-Bas".data),
   ("holland".data, "Pays-Bas".data),
   ("germany".data, "Allemagne".data),
   ("spain".data, "Espagne".data),
   ("italy".data, "Italie".data),
   ("switzerland".data, "Suisse".data),
   ("belgium".data, "Belgique".data),
   ("austria".data, "Autriche".data),
   ("portugal".data, "Portugal".data),
   ("greece".data, "Grèce".data),
   ("poland".data, "Pologne".data),
   ("sweden".data, "Suède".data),
   ("norway".data, "Norvège".data),
   ("denmark".data, "Danemark".data),
   ("finland".data, "Finlande".data),
   ("czech republic".data, "République tchèque".data),
   ("hungary".data, "Hongrie".data),
   ("romania".data, "Roumanie".data),
   ("bulgaria".data, "Bulgarie".data),
   ("croatia".data, "Croatie".data),
   ("slovenia".data, "Slovénie".data),
   ("slovakia".data, "Slovaquie".data),
   ("china".data, "Chine".data),
   ("japan".data, "Japon".data),
   ("india".data, "Inde".data),
   ("south korea".data, "Corée du Sud".data),
   ("thailand".data, "Thaïlande".data),
   ("vietnam".data, "Vietnam".data),
   ("indonesia".data, "Indonésie".data),
   ("malaysia".data, "Malaisie".data),
   ("singapore".data, "Singapour".data),
   ("philippines".data, "Philippines".data),
   ("australia".data, "Australie".data),
   ("new zealand".data, "Nouvelle-Zélande".data),
   ("brazil".data, "Brésil".data),
   ("argentina".data, "Argentine".data),
   ("canada".data, "Canada".data),
   ("mexico".data, "Mexique".data),
   ("morocco".data, "Maroc".data),
   ("algeria".data, "Algérie".data),
   ("tunisia".data, "Tunisie".data),
   ("egypt".data, "Égypte".data),
   ("south africa".data, "Afrique du Sud".data),
   ("etats-unis".data, "États-Unis".data),
   ("etats unis".data, "États-Unis".data),
   ("royaume uni".data, "Royaume-Uni".data),
   ("pays bas".data, "Pays-Bas".data),
   ("emirats arabes unis".data, "Émirats arabes unis".data),
   ("arabie saoudite".data, "Arabie saoudite".data),
   ("coree du sud".data, "Corée du Sud".data),
   ("afrique du sud".data, "Afrique du Sud".data),
   ("nouvelle zelande".data, "Nouvelle-Zélande".data),
   ("nouvelle-zelande".data, "Nouvelle-Zélande".data),
   ("republique tcheque".data, "République tchèque".data)]

/-- Python dict lookup on an association table. -/
def lookupTbl (tbl : List (List Char × List Char)) (key : List Char) :
    Option (List Char) :=
  (tbl.find? (fun p => p.1 = key)).map (·.2)

/-- `CountryCorrector.normalize_country_code`. -/
def normalize_country_code (country : List Char) : Option (List Char) :=
  lookupTbl COUNTRY_CODES (pyStrip (upperStr country))

/-- `CountryCorrector.normalize_country_variant`. -/
def normalize_country_variant (country : List Char) : Option (List Char) :=
  lookupTbl COUNTRY_VARIANTS (pyStrip (lowerStr country))

/-- `CountryCorrector.suggest_country` (default `max_distance = 2`): fuzzy
match of the lowered input against the lowered canonical names, returning the
canonical (unlowered) best match. -/
def suggest_country (country : List Char) : Option (List Char) :=
  let country_lower := pyStrip (lowerStr country)
  if VALID_COUNTRIES.contains country then none
  else
    (VALID_COUNTRIES.foldl
      (fun (best : Option (List Char × Nat)) valid_country =>
        let distance := levenshtein_distance country_lower (lowerStr valid_country)
        match best with
        | none => if distance ≤ 2 then some (valid_country, distance) else best
        | some (_, bd) =>
          if distance ≤ 2 && distance < bd then some (valid_country, distance) else best)
      none).map (·.1)

/-- `CountryCorrector.correct_country`. -/
def correct_country (country : List Char) : List Char × Bool :=
  if country.isEmpty then (country, false)
  else
    let country_stripped := pyStrip country
    if VALID_COUNTRIES.contains country_stripped then (country_stripped, false)
    else
      let step2 :=
        if country_stripped.length ≤ 3 && pyIsAlpha country_stripped then
          normalize_country_code country_stripped
        else none
      match step2 with
      | some normalized => (normalized, true)
      | none =>
        match normalize_country_variant country_stripped with
        | some variant => (variant, true)
        | none =>
          match suggest_country country_stripped with
          | some suggested => (suggested, true)
          | none => (country_stripped, false)

end SDP

namespace SDP

/-! ## DocumentClassifier (`app/utils/document_classifier.py`) -/

inductive DocumentType where
  | BLANK_SHEET
  | STUDIO_PARFUMS
  | UNKNOWN
  deriving Repr, DecidableEq

/-- Case-insensitive prefix test (the regex engine under `re.IGNORECASE`). -/
def ciPrefix : List Char → List Char → Bool
  | [], _ => true
  | _ :: _, [] => false
  | a :: as_, b :: bs => pyLower a = pyLower b && ciPrefix as_ bs

/-- Generic regex search driver: try the pattern at every position, tracking
the previous character for `\b` word-boundary tests. -/
def reSearch (check : Option Char → List Char → Bool) (s : List Char) : Bool :=
  go none s
where
  go (prev : Option Char) : List Char → Bool
    | [] => false
    | c :: rest => check prev (c :: rest) || go (some c) rest

/-- `\b` before a word character: the previous character is absent or not a
word character. -/
def boundaryBefore (prev : Option Char) : Bool :=
  match prev with
  | none => true
  | some p => !isWordChar p

/-- `\b` after a word character: the next character is absent or not a word
character. -/
def boundaryAfter : List Char → Bool
  | [] => true
  | c :: _ => !isWordChar c

/-- `\s+\d{4}\b` (the tail of the month/year pattern). -/
def wsThen4Digits (t : List Char) : Bool :=
  let ws := t.takeWhile isPyWs
  if ws.isEmpty then false
  else
    let rest := t.drop ws.length
    (rest.take 4).length = 4 && (rest.take 4).all isDigitChar && boundaryAfter (rest.drop 4)

/-- `re.search(r'\b(m₁|...|mₙ)\s+\d{4}\b', text, re.IGNORECASE)` for a list of
month alternatives (each beginning with a word character). -/
def monthYearSearch (months : List (List Char)) (s : List Char) : Bool :=
  reSearch
    (fun prev t =>
      boundaryBefore prev &&
        months.any (fun m => ciPrefix m t && wsThen4Digits (t.drop m.length)))
    s

/-- `re.search(r'\b\d{1,2}SEP\d{4}\b', text)` for a literal separator. -/
def numMonthYearSearch (sep : Char) (s : List Char) : Bool :=
  reSearch
    (fun prev t =>
      boundaryBefore prev &&
        ((matchAt t 2 sep) || (matchAt t 1 sep)))
    s
where
  matchAt (t : List Char) (l1 : Nat) (sep : Char) : Bool :=
    (t.take l1).length = l1 && (t.take l1).all isDigitChar &&
      (match t.drop l1 with
       | c :: rest =>
         c = sep && (rest.take 4).length = 4 && (rest.take 4).all isDigitChar &&
           boundaryAfter (rest.drop 4)
       | [] => false)

/-- `DocumentClassifier.studio_parfums_keywords`. -/
def studio_parfums_keywords : List (List Char) :=
  ["LE STUDIO DES PARFUMS".data, "STUDIO DES PARFUMS".data,
   "STUDIO PARFUMS".data]

/-- `DocumentClassifier.blank_sheet_keywords`. -/
def blank_sheet_keywords : List (List Char) :=
  ["fiches manquantes".data, "doublons".data, "tel".data, "mail".data]

/-- The month alternatives of `_calculate_blank_sheet_score`, byte-for-byte as
they stand in the source file (the three accented months are mojibake:
`fÃĐvrier`, `aoÃŧt`, `dÃĐcembre`). -/
def classifier_month_patterns : List (List Char) :=
  ["janvier".data, "fÃĐvrier".data, "mars".data, "avril".data, "mai".data, "juin".data, "juillet".data, "aoÃŧt".data, "septembre".data, "octobre".data, "novembre".data, "dÃĐcembre".data]

/-- `DocumentClassifier._calculate_studio_score` (scores as exact rationals). -/
def _calculate_studio_score (text : List Char) : ℚ :=
  let score : ℚ := if studio_parfums_keywords.any (fun k => strContains text (lowerStr k)) then 0.8 else 0
  let score := score + (if strContains text "parfum".data then 0.2 else 0)
  let score := score + (if strContains text "studio".data then 0.2 else 0)
  min score 1

/-- The keyword-counting loop of `_calculate_blank_sheet_score`. -/
def blankKeywordCount (text : List Char) : Nat :=
  (blank_sheet_keywords.filter (fun k => strContains text k)).length

/-- The month/year pattern loop of `_calculate_blank_sheet_score` (first
matching pattern wins; one bonus at most). -/
def blankMonthFound (text : List Char) : Bool :=
  monthYearSearch classifier_month_patterns text ||
    numMonthYearSearch '/' text || numMonthYearSearch '-' text

/-- `DocumentClassifier._calculate_blank_sheet_score`. -/
def _calculate_blank_sheet_score (text : List Char) : ℚ :=
  let found_keywords := blankKeywordCount text
  let score : ℚ := (0.25 : ℚ) * found_keywords
  let score := score + (if blankMonthFound text then 0.3 else 0)
  let score := score + (if found_keywords ≥ 3 then 0.2 else 0)
  min score 1

/-- `DocumentClassifier.classify_document`. -/
def classify_document (text : List Char) : DocumentType × ℚ :=
  let text_lower := lowerStr text
  let studio_score := _calculate_studio_score text_lower
  let blank_score := _calculate_blank_sheet_score text_lower
  if studio_score > blank_score ∧ studio_score > 0.3 then
    (.STUDIO_PARFUMS, studio_score)
  else if blank_score > studio_score ∧ blank_score > 0.3 then
    (.BLANK_SHEET, blank_score)
  else
    (.UNKNOWN, max studio_score blank_score)

end SDP

namespace SDP

/-! ## DataExtractor identifier extraction (`app/utils/data_extractor.py`) -/

/-- Split a line into maximal blocks of characters of equal word-ness
(word characters vs. everything else); the regex `\b` boundaries of the
identifier patterns fall exactly at block borders. -/
def chunkClasses : List Char → List (List Char)
  | [] => []
  | c :: rest =>
    match chunkClasses rest with
    | [] => [[c]]
    | [] :: bs => [c] :: bs
    | (d :: ds) :: bs =>
      if isWordChar c = isWordChar d then (c :: d :: ds) :: bs
      else [c] :: (d :: ds) :: bs

/-- `re.findall(r'\b\d{8,10}\b', line)`: the maximal word-character blocks
that are all digits and 8–10 long. -/
def findall_ident (line : List Char) : List (List Char) :=
  (chunkClasses line).filter
    (fun b => b.all isDigitChar && 8 ≤ b.length && b.length ≤ 10)

/-- `re.findall(r'\b(p₁)\s+(\d{5})\b', line)` for a first group selected by
`cond1` over a 4-character digit block: pairs of consecutive word blocks
separated by pure whitespace, consumed left to right. -/
def spacedPairs (cond1 : List Char → Bool) (line : List Char) :
    List (List Char × List Char) :=
  go (chunkClasses line)
where
  go : List (List Char) → List (List Char × List Char)
    | b0 :: b1 :: b2 :: rest =>
      if b0.all isDigitChar && b0.length = 4 && cond1 b0 &&
          b1.all isPyWs &&
          b2.all isDigitChar && b2.length = 5 then
        (b0, b2) :: go rest
      else go (b1 :: b2 :: rest)
    | _ => []

/-- The per-match branch ladder of `_extract_identifiant` (strip leading
zeros, then the `20`/`6`/`62` OCR heuristics). -/
def identFromRaw (raw_ident : List Char) : Option (List Char) :=
  let ident := pyLstrip ['0'] raw_ident
  if ("20".data).isPrefixOf ident then some ident
  else if ("6".data).isPrefixOf ident then some ('2' :: '0' :: ident.tail)
  else if ("62".data).isPrefixOf ident then some ('2' :: '0' :: '2' :: ident.drop 2)
  else none

/-- `DataExtractor._extract_identifiant`: scan only the first 5 lines. -/
def _extract_identifiant (text : List Char) : Option (List Char) :=
  go ((pySplitAll '\n' text).take 5)
where
  go : List (List Char) → Option (List Char)
    | [] => none
    | line :: rest =>
      match (findall_ident line).findSome? identFromRaw with
      | some r => some r
      | none =>
        match
          (spacedPairs (fun _ => true) line).findSome?
            (fun p =>
              let combined := p.1 ++ p.2
              if ("20".data).isPrefixOf combined then some combined else none)
        with
        | some r => some r
        | none =>
          match (spacedPairs (fun b => ("20".data).isPrefixOf b) line).head? with
          | some p => some (p.1 ++ p.2)
          | none => go rest

end SDP

namespace SDP

/-! ## CSVGenerator (`app/utils/csv_generator.py`) -/

/-- `CSVGenerator.HEADERS`. -/
def HEADERS : List (List Char) :=
  ["identifiant".data, "genre".data, "nom".data, "prenom".data, "date".data,
   "ville".data, "pays".data, "tel".data, "email".data, "profession".data,
   "date_naissance".data]

theorem sdp_length_takeWhile_le (p : Char → Bool) (l : List Char) :
    (l.takeWhile p).length ≤ l.length := by
  induction l with
  | nil => simp [List.takeWhile]
  | cons c t ih =>
    simp only [List.takeWhile]
    cases p c <;> simp <;> omega

theorem sdp_length_dropWhile_le (p : Char → Bool) (l : List Char) :
    (l.dropWhile p).length ≤ l.length := by
  induction l with
  | nil => simp [List.dropWhile]
  | cons c t ih =>
    simp only [List.dropWhile]
    cases p c <;> simp <;> omega

/-- Collapse runs of whitespace to a single space
(`re.sub(r"\s+", " ", v)`). -/
def collapseWs : List Char → List Char
  | [] => []
  | c :: rest =>
    if isPyWs c then ' ' :: collapseWs (rest.dropWhile isPyWs)
    else c :: collapseWs rest
termination_by s => s.length
decreasing_by
  · simp only [List.length_cons]
    have := sdp_length_dropWhile_le isPyWs rest
    omega
  · simp only [List.length_cons]
    omega

/-- Remove every whitespace character (`re.sub(r'\s+', '', v)`). -/
def stripAllWs (s : List Char) : List Char := s.filter (fun c => !(isPyWs c))

/-- Case-insensitive `str.find` (`v.lower().find(label.lower())`). -/
def ciFind (haystack needle : List Char) : Option Nat :=
  strFind (lowerStr haystack) (lowerStr needle)

/-- `CSVGenerator._cut_on_labels`. -/
def _cut_on_labels (v : List Char) : List Char :=
  go ["Pays:".data, "Ville:".data, "Tel:".data, "Email:".data,
      "Profession:".data, "Date:".data, "Nom:".data, "Prénom:".data,
      "Date de naissance:".data]
where
  go : List (List Char) → List Char
    | [] => pyStrip v
    | label :: rest =>
      match ciFind v label with
      | some idx => pyStrip (v.take idx)
      | none => go rest

/-- `CSVGenerator._clean_simple`. -/
def _clean_simple (value : Option (List Char)) : List Char :=
  match value with
  | none => []
  | some v =>
    if v.isEmpty then []
    else _cut_on_labels (collapseWs (pyStrip v))

/-- Character class `[A-Z0-9._%+-]` (IGNORECASE) of the standard email
pattern's local part. -/
def isEmailLocalChar (c : Char) : Bool :=
  isLetterChar c || isDigitChar c || c = '.' || c = '_' || c = '%' || c = '+' || c = '-'

/-- Character class `[A-Z0-9._%-]` (the OCR-tolerant pattern's word chars). -/
def isEmailLocalChar2 (c : Char) : Bool :=
  isLetterChar c || isDigitChar c || c = '.' || c = '_' || c = '%' || c = '-'

/-- Character class `[A-Z0-9.-]` of the domain part. -/
def isEmailDomainChar (c : Char) : Bool :=
  isLetterChar c || isDigitChar c || c = '.' || c = '-'

/-- The letters immediately following position `i` in `run`. -/
def lettersAfter (run : List Char) (i : Nat) : List Char :=
  (run.drop (i + 1)).takeWhile isLetterChar

/-- Rightmost index `i` of `run` with `run[i] = '.'`, `i ≥ 1`, and at least
two letters right after it (the backtracking choice of the regex). -/
def bestDotIndex (run : List Char) : Option Nat :=
  go (run.length)
where
  go : Nat → Option Nat
    | 0 => none
    | (n + 1) =>
      if h : n < run.length then
        if run.get ⟨n, h⟩ = '.' && n ≥ 1 && (lettersAfter run n).length ≥ 2 then
          some n
        else go n
      else go n

/-- `re.search(r"[A-Z0-9._%+-]+@[A-Z0-9.-]+\.[A-Z]{2,}", text, re.I)`:
the leftmost match, returned as the matched text. -/
def searchEmailStd (text : List Char) : Option (List Char) :=
  go text
where
  go : List Char → Option (List Char)
    | [] => none
    | c :: rest =>
      match tryAt (c :: rest) with
      | some m => some m
      | none => go rest
  tryAt (t : List Char) : Option (List Char) :=
    let lpart := t.takeWhile isEmailLocalChar
    if lpart.isEmpty then none
    else
      match t.drop lpart.length with
      | '@' :: afterAt =>
        let run := afterAt.takeWhile isEmailDomainChar
        match bestDotIndex run with
        | some i =>
          some (lpart ++ '@' :: (run.take i ++ '.' :: lettersAfter run i))
        | none => none
      | _ => none

/-- Greedy word list of the OCR-tolerant pattern
`([A-Z0-9._%-]+(?:\s+[A-Z0-9._%-]+)*)`: collect the first word and every
further word reachable through pure whitespace. -/
def ocrWords (t : List Char) : List (List Char) :=
  let w := t.takeWhile isEmailLocalChar2
  if hw : w.isEmpty then []
  else
    let rest := t.drop w.length
    let ws := rest.takeWhile isPyWs
    if ws.isEmpty then [w]
    else w :: ocrWords (rest.drop ws.length)
termination_by t.length
decreasing_by
  simp_wf
  have h1 := sdp_length_takeWhile_le isEmailLocalChar2 t
  have h2 : t.takeWhile isEmailLocalChar2 ≠ [] := by
    intro h
    rw [List.isEmpty_iff] at hw
    exact hw h
  have h3 : 0 < (t.takeWhile isEmailLocalChar2).length := List.length_pos.mpr h2
  have h4 := sdp_length_takeWhile_le isPyWs (t.drop (t.takeWhile isEmailLocalChar2).length)
  simp only [List.length_drop] at *
  omega

end SDP

namespace SDP

/-- `\s*@\s*([A-Z0-9.-]+\.[A-Z]{2,})` — the tail of the OCR-tolerant email
pattern after the words of the local part. -/
def ocrAfterAt (t : List Char) : Option (List Char) :=
  let ws := t.takeWhile isPyWs
  match t.drop ws.length with
  | '@' :: r =>
    let ws2 := r.takeWhile isPyWs
    let run := (r.drop ws2.length).takeWhile isEmailDomainChar
    match bestDotIndex run with
    | some i => some (run.take i ++ '.' :: lettersAfter run i)
    | none => none
  | _ => none

/-- `(?:\s+[A-Z0-9._%-]+)*\s*@\s*(domain)` with greedy backtracking: prefer
absorbing one more whitespace-separated word; on failure fall back to
matching the `@` at the current position.  Returns the concatenation of the
absorbed words and the matched domain. -/
def ocrTail (t : List Char) : Option (List Char × List Char) :=
  let attempt_more :=
    let ws := t.takeWhile isPyWs
    if hws : ws.isEmpty then none
    else
      let t2 := t.drop ws.length
      let w := t2.takeWhile isEmailLocalChar2
      if hw : w.isEmpty then none
      else
        match ocrTail (t2.drop w.length) with
        | some (more, dom) => some (w ++ more, dom)
        | none => none
  match attempt_more with
  | some r => some r
  | none =>
    match ocrAfterAt t with
    | some dom => some ([], dom)
    | none => none
termination_by t.length
decreasing_by
  simp_wf
  have h1 := sdp_length_takeWhile_le isPyWs t
  have h2 : t.takeWhile isPyWs ≠ [] := by
    intro h
    rw [List.isEmpty_iff] at hws
    exact hws h
  have h3 : 0 < (t.takeWhile isPyWs).length := List.length_pos.mpr h2
  have h4 := sdp_length_takeWhile_le isEmailLocalChar2 (t.drop (t.takeWhile isPyWs).length)
  simp only [List.length_drop] at *
  omega

/-- `re.search` of the OCR-tolerant pattern
`([A-Z0-9._%-]+(?:\s+[A-Z0-9._%-]+)*)\s*@\s*([A-Z0-9.-]+\.[A-Z]{2,})`:
returns (words of group 1 concatenated, group 2). -/
def searchEmailOcr (text : List Char) : Option (List Char × List Char) :=
  go text
where
  go : List Char → Option (List Char × List Char)
    | [] => none
    | c :: rest =>
      match tryAt (c :: rest) with
      | some r => some r
      | none => go rest
  tryAt (t : List Char) : Option (List Char × List Char) :=
    let w := t.takeWhile isEmailLocalChar2
    if w.isEmpty then none
    else
      match ocrTail (t.drop w.length) with
      | some (more, dom) => some (w ++ more, dom)
      | none => none

/-- `CSVGenerator._clean_email`. -/
def _clean_email (value : Option (List Char)) : List Char :=
  match value with
  | none => []
  | some v =>
    if v.isEmpty then []
    else
      let text := pyStrip v
      match searchEmailStd text with
      | some m => m
      | none =>
        match searchEmailOcr text with
        | some (g1, g2) => stripAllWs g1 ++ '@' :: stripAllWs g2
        | none => []

/-- `' '.join(digits[i:i+2] for i in range(0, 10, 2))`. -/
def pairChunks : List Char → List (List Char)
  | [] => []
  | [a] => [[a]]
  | a :: b :: r => [a, b] :: pairChunks r

/-- `CSVGenerator._clean_phone`. -/
def _clean_phone (value : Option (List Char)) : List Char :=
  match value with
  | none => []
  | some v =>
    if v.isEmpty then []
    else
      let digits := v.filter isDigitChar
      if digits.length = 10 && ("0".data).isPrefixOf digits then
        joinSep " ".data (pairChunks digits)
      else if ("33".data).isPrefixOf digits && digits.length = 11 then
        "+33 ".data ++ joinSep " ".data (pairChunks (digits.drop 2))
      else pyStrip v

/-- Try the date pattern `(\d{1,2}) sep (\d{1,2}) sep (\d{2,4})` with
`sep` one of `/` or dash, at one position, with the regex engine's greedy preference (2 digits before 1,
4-then-3-then-2 digits for the year). -/
def dateTryAt (t : List Char) : Option (List Char × List Char × List Char) :=
  (pick [2, 1] t).findSome? (fun p1 =>
    match sepAfter t p1.length with
    | none => none
    | some r1 =>
      (pick [2, 1] r1).findSome? (fun p2 =>
        match sepAfter r1 p2.length with
        | none => none
        | some r2 =>
          (pick [4, 3, 2] r2).findSome? (fun y => some (p1, p2, y))))
where
  pick (ls : List Nat) (t : List Char) : List (List Char) :=
    ls.filterMap (fun l =>
      let d := t.take l
      if d.length = l && d.all isDigitChar then some d else none)
  sepAfter (t : List Char) (n : Nat) : Option (List Char) :=
    match t.drop n with
    | c :: r => if c = '/' || c = '-' then some r else none
    | [] => none

/-- `re.search` of the date pattern above over the whole value. -/
def searchDate (value : List Char) : Option (List Char × List Char × List Char) :=
  go value
where
  go : List Char → Option (List Char × List Char × List Char)
    | [] => none
    | c :: rest =>
      match dateTryAt (c :: rest) with
      | some r => some r
      | none => go rest

/-- `CSVGenerator._clean_date`. -/
def _clean_date (value : Option (List Char)) : List Char :=
  match value with
  | none => []
  | some v =>
    if v.isEmpty then []
    else
      match searchDate v with
      | none => pyStrip v
      | some (part1, part2, year0) =>
        let year :=
          if year0.length = 2 then
            if toNatDigits year0 ≤ 30 then '2' :: '0' :: year0
            else '1' :: '9' :: year0
          else year0
        let p1 := toNatDigits part1
        let p2 := toNatDigits part2
        let dm : Nat × Nat :=
          if p1 > 12 then (p1, p2)
          else if p2 > 12 then (p2, p1)
          else (p1, p2)
        pad2 dm.1 ++ '/' :: pad2 dm.2 ++ '/' :: year

/-- Match `label\s*:\s*` (IGNORECASE) at the head of `t`, returning the
matched length. -/
def matchLabelColonWs (label : List Char) (t : List Char) : Option Nat :=
  if ciPrefix label t then
    let r := t.drop label.length
    let ws1 := r.takeWhile isPyWs
    match r.drop ws1.length with
    | ':' :: r2 => some (label.length + ws1.length + 1 + (r2.takeWhile isPyWs).length)
    | _ => none
  else none

/-- Match `label\s*:` (IGNORECASE, no trailing `\s*`) at the head of `t`. -/
def matchLabelColon (label : List Char) (t : List Char) : Option Nat :=
  if ciPrefix label t then
    let r := t.drop label.length
    let ws1 := r.takeWhile isPyWs
    match r.drop ws1.length with
    | ':' :: _ => some (label.length + ws1.length + 1)
    | _ => none
  else none

/-- `re.sub(r"(?i)label\s*:\s*", "", v)`: remove every occurrence. -/
def removeLabelColonWs (label : List Char) : List Char → List Char
  | [] => []
  | c :: rest =>
    match h : matchLabelColonWs label (c :: rest) with
    | some n => removeLabelColonWs label ((c :: rest).drop n)
    | none => c :: removeLabelColonWs label rest
termination_by s => s.length
decreasing_by
  · have hn : 0 < n := by
      by_contra hz
      have hz0 : n = 0 := by omega
      subst hz0
      unfold matchLabelColonWs at h
      by_cases hp : ciPrefix label (c :: rest)
      · simp only [hp, if_true] at h
        cases hcr : (((c :: rest).drop label.length).drop
            (((c :: rest).drop label.length).takeWhile isPyWs).length) with
        | nil => rw [hcr] at h; simp at h
        | cons d r2 =>
          rw [hcr] at h
          by_cases hd : d = ':'
          · subst hd; simp at h
          · simp [hd] at h
      · simp [hp] at h
    simp only [List.length_drop, List.length_cons]
    omega
  · simp only [List.length_cons]
    omega

/-- `re.split(r"(?i)label\s*:", v)[0]`: the text before the first
occurrence. -/
def splitBeforeLabel (label : List Char) (s : List Char) : List Char :=
  go s
where
  go : List Char → List Char
    | [] => []
    | c :: rest =>
      match matchLabelColon label (c :: rest) with
      | some _ => []
      | none => c :: go rest

/-- `CSVGenerator._clean_city`. -/
def _clean_city (value : Option (List Char)) : List Char :=
  match value with
  | none => []
  | some v =>
    if v.isEmpty then []
    else
      pyStrip (splitBeforeLabel "pays".data (removeLabelColonWs "ville".data v))

/-- `CSVGenerator._clean_country`. -/
def _clean_country (value : Option (List Char)) : List Char :=
  match value with
  | none => []
  | some v =>
    if v.isEmpty then []
    else
      pyStrip (splitBeforeLabel "ville".data (removeLabelColonWs "pays".data v))

/-- `CSVGenerator._clean_identifiant`. -/
def _clean_identifiant (value : Option (List Char)) : List Char :=
  match value with
  | none => []
  | some v =>
    if v.isEmpty then []
    else
      let digits := v.filter isDigitChar
      let digits := if digits.length ≥ 9 then digits.take 9 else digits
      if ("20".data).isPrefixOf digits then digits
      else '2' :: '0' :: digits.drop 2

end SDP

namespace SDP

/-- Extracted per-page data as consumed by the CSV generator
(`extracted_data` dict of a studio-parfums page). -/
structure CsvPageData where
  identifiant : Option (List Char) := none
  genre : Option (List Char) := none
  nom : Option (List Char) := none
  prenom : Option (List Char) := none
  date : Option (List Char) := none
  ville : Option (List Char) := none
  pays : Option (List Char) := none
  tel : Option (List Char) := none
  email : Option (List Char) := none
  profession : Option (List Char) := none
  date_naissance : Option (List Char) := none
  deriving Repr, DecidableEq

/-- One element of the `processed_pages` list handed to the CSV generator. -/
structure CsvPage where
  document_type : List Char
  extracted_data : Option CsvPageData
  deriving Repr, DecidableEq

/-- Longest common prefix of two identifier strings (the character-by-character
comparison loop of `_detect_identifiant_prefix`). -/
def commonPrefix : List Char → List Char → List Char
  | a :: as_, b :: bs => if a = b then a :: commonPrefix as_ bs else []
  | _, _ => []

/-- `CSVGenerator._detect_identifiant_prefix` (detect the ≥6-digit common
prefix of the cleaned identifiers). -/
def _detect_identifiant_pfx (studio_pages : List CsvPage) : List Char :=
  let identifiants :=
    studio_pages.filterMap (fun page =>
      let data := page.extracted_data.getD {}
      let identifiant := _clean_identifiant data.identifiant
      if !identifiant.isEmpty && identifiant.length ≥ 6 then some identifiant
      else none)
  match identifiants with
  | [] => []
  | [single] => single.take 6
  | first :: rest =>
    let pfx := rest.foldl commonPrefix first
    if pfx.length ≥ 6 then pfx.take 6 else []

/-- `csv.QUOTE_MINIMAL` field rendering for the `;`-delimited writer. -/
def quoteMinimal (field : List Char) : List Char :=
  if field.any (fun c => c = ';' || c = '"' || c = '\n' || c = '\r') then
    '"' :: (field.bind (fun c => if c = '"' then ['"', '"'] else [c])) ++ ['"']
  else field

/-- One CSV line (fields joined by `;`, `\n` line terminator). -/
def csvLine (fields : List (List Char)) : List Char :=
  joinSep ";".data (fields.map quoteMinimal) ++ ['\n']

/-- The row built for one studio-parfums page (`i` is the 1-based position in
the filtered list). -/
def csvRow (pfx : List Char) (i : Nat) (page : CsvPage) : List (List Char) :=
  let data := page.extracted_data.getD {}
  let identifiant := _clean_identifiant data.identifiant
  let identifiant :=
    if identifiant.isEmpty && !pfx.isEmpty then pfx ++ pad3 i else identifiant
  [identifiant,
   _clean_simple data.genre,
   _clean_simple data.nom,
   _clean_simple data.prenom,
   _clean_date data.date,
   _clean_city data.ville,
   _clean_country data.pays,
   _clean_phone data.tel,
   _clean_email data.email,
   _clean_simple data.profession,
   _clean_date data.date_naissance]

/-- `CSVGenerator.generate_studio_parfums_csv`. -/
def generate_studio_parfums_csv (processed_pages : List CsvPage) : List Char :=
  let studio_pages :=
    processed_pages.filter (fun page => page.document_type = "studio_parfums".data)
  let pfx := _detect_identifiant_pfx studio_pages
  let rec rows : Nat → List CsvPage → List (List Char)
    | _, [] => []
    | i, page :: rest => csvLine (csvRow pfx i page) :: rows (i + 1) rest
  csvLine HEADERS ++ (rows 1 studio_pages).join

end SDP

namespace SDP

/-! ## Persistence model (customers / customers_review / customer_files)

The MySQL store is modelled as in-memory tables with per-table
auto-increment counters.  `crud_*.create`/`update` filter out `None`/empty
values exactly as the Python helpers do; connection failures and SQL errors
are external faults outside the verified properties. -/

structure CustomerRow where
  id : Nat
  first_name : Option (List Char) := none
  last_name : Option (List Char) := none
  email : Option (List Char) := none
  phone : Option (List Char) := none
  job : Option (List Char) := none
  city : Option (List Char) := none
  country : Option (List Char) := none
  reference : Option (List Char) := none
  date : Option (List Char) := none
  verified_email : Option Bool := none
  verified_domain : Option Bool := none
  verified_phone : Option Bool := none
  deriving Repr, DecidableEq

structure ReviewRow where
  id : Nat
  first_name : Option (List Char) := none
  last_name : Option (List Char) := none
  email : Option (List Char) := none
  phone : Option (List Char) := none
  job : Option (List Char) := none
  city : Option (List Char) := none
  country : Option (List Char) := none
  reference : Option (List Char) := none
  date : Option (List Char) := none
  verified_email : Option Bool := none
  verified_domain : Option Bool := none
  verified_phone : Option Bool := none
  type : List Char := []
  deriving Repr, DecidableEq

structure FileRow where
  id : Nat
  customer_id : Option Nat := none
  customer_review_id : Option Nat := none
  file_path : List Char := []
  deriving Repr, DecidableEq

structure DB where
  customers : List CustomerRow := []
  reviews : List ReviewRow := []
  files : List FileRow := []
  nextCustomerId : Nat := 1
  nextReviewId : Nat := 1
  deriving Repr, DecidableEq

/-- The `customer_data` dict produced by `_map_ocr_to_customer`. -/
structure CustomerData where
  first_name : Option (List Char) := none
  last_name : Option (List Char) := none
  email : Option (List Char) := none
  phone : Option (List Char) := none
  job : Option (List Char) := none
  city : Option (List Char) := none
  country : Option (List Char) := none
  reference : Option (List Char) := none
  date : Option (List Char) := none
  verified_email : Option Bool := none
  verified_domain : Option Bool := none
  verified_phone : Option Bool := none
  deriving Repr, DecidableEq

/-- Python truthiness of an optional string. -/
def truthyOpt : Option (List Char) → Bool
  | some s => !s.isEmpty
  | none => false

/-- The `None`/`""` filtering of the crud `create` helpers: an empty string
value is omitted from the INSERT, so the column stores NULL. -/
def normField : Option (List Char) → Option (List Char)
  | some s => if s.isEmpty then none else some s
  | none => none

/-- `crud_customer.create`. -/
def crud_customer_create (db : DB) (d : CustomerData) : Nat × DB :=
  let row : CustomerRow :=
    { id := db.nextCustomerId,
      first_name := normField d.first_name, last_name := normField d.last_name,
      email := normField d.email, phone := normField d.phone,
      job := normField d.job, city := normField d.city,
      country := normField d.country, reference := normField d.reference,
      date := normField d.date,
      verified_email := d.verified_email, verified_domain := d.verified_domain,
      verified_phone := d.verified_phone }
  (db.nextCustomerId,
   { db with customers := db.customers ++ [row],
             nextCustomerId := db.nextCustomerId + 1 })

/-- `crud_customer_review.create` (adds the `type` column). -/
def crud_customer_review_create (db : DB) (d : CustomerData)
    (review_type : List Char) : Nat × DB :=
  let row : ReviewRow :=
    { id := db.nextReviewId,
      first_name := normField d.first_name, last_name := normField d.last_name,
      email := normField d.email, phone := normField d.phone,
      job := normField d.job, city := normField d.city,
      country := normField d.country, reference := normField d.reference,
      date := normField d.date,
      verified_email := d.verified_email, verified_domain := d.verified_domain,
      verified_phone := d.verified_phone,
      type := review_type }
  (db.nextReviewId,
   { db with reviews := db.reviews ++ [row],
             nextReviewId := db.nextReviewId + 1 })

/-- `crud_customer.check_duplicate_email`
(`SELECT id FROM customers WHERE email = %s LIMIT 1`). -/
def check_duplicate_email (db : DB) (email : List Char) : Bool :=
  db.customers.any (fun c => c.email = some email)

/-- `crud_customer.check_duplicate_phone`. -/
def check_duplicate_phone (db : DB) (phone : List Char) : Bool :=
  db.customers.any (fun c => c.phone = some phone)

/-- `CustomerBusinessService._check_duplicate_type`. -/
def _check_duplicate_type (db : DB) (email phone : Option (List Char)) :
    Option (List Char) :=
  if !truthyOpt email && !truthyOpt phone then none
  else
    let duplicate_types :=
      (if truthyOpt email && check_duplicate_email db (email.getD []) then
        ["Mail".data] else []) ++
      (if truthyOpt phone && check_duplicate_phone db (phone.getD []) then
        ["Phone".data] else [])
    match duplicate_types with
    | [] => none
    | l => some ("Doublon - ".data ++ joinSep " et ".data l)

/-- External collaborators of the reconciliation service (MX lookup,
deliverability API, phone-intelligence API), injected as functions. -/
structure Collaborators where
  verify_email_domain : List Char → Bool × List Char
  validate_email_sync : List Char → Bool
  verify_phone_number : List Char → Option Bool

/-- Total wrapper of `correct_email` (`correct_email_total` below shows the
error branch is dead code). -/
def correct_email! (email : List Char) : List Char × Bool × Option (List Char) :=
  match correct_email email with
  | .ok r => r
  | .error _ => (email, false, none)

/-- `safe_strip` helper of `_map_ocr_to_customer`. -/
def safe_strip : Option (List Char) → Option (List Char)
  | none => none
  | some v =>
    let t := pyStrip v
    if t.isEmpty then none else some t

/-- The raw OCR `extracted_data` keys read by `_map_ocr_to_customer`. -/
structure OcrExtracted where
  email : Option (List Char) := none
  pays : Option (List Char) := none
  tel : Option (List Char) := none
  prenom : Option (List Char) := none
  nom : Option (List Char) := none
  profession : Option (List Char) := none
  ville : Option (List Char) := none
  identifiant : Option (List Char) := none
  date : Option (List Char) := none
  deriving Repr, DecidableEq

/-- `CustomerBusinessService._map_ocr_to_customer`. -/
def _map_ocr_to_customer (col : Collaborators) (extracted_data : OcrExtracted) :
    CustomerData × Bool × Option (List Char) :=
  let email0 := safe_strip extracted_data.email
  let emailCorr : Option (List Char) × Bool :=
    match email0 with
    | none => (none, false)
    | some e =>
      let (corrected_email, was_corrected, _) := correct_email! e
      if was_corrected then (some corrected_email, true) else (some e, false)
  let email := emailCorr.1
  let was_email_corrected := emailCorr.2
  let verified_domain :=
    match email with
    | some e => if e.isEmpty then none else some (col.verify_email_domain e).1
    | none => none
  let verified_email :=
    match email with
    | some e => if e.isEmpty then none else some (col.validate_email_sync e)
    | none => none
  let country0 := safe_strip extracted_data.pays
  let country :=
    match country0 with
    | some c => some (correct_country c).1
    | none => none
  let phone0 := safe_strip extracted_data.tel
  let phoneRes : Option (List Char) × Option (List Char) :=
    match phone0 with
    | none => (none, none)
    | some p =>
      let (normalized_phone, was_phone_modified, error_type) :=
        validate_phone_number p country
      if error_type = some "invalid_length".data then
        (normalized_phone, some "Erreur - Numéro".data)
      else if was_phone_modified then
        (normalized_phone, some "Modifié".data)
      else
        (if normalized_phone.isSome then normalized_phone else some p, none)
  let phone := phoneRes.1
  let phone_error := phoneRes.2
  let verified_phone :=
    match phone with
    | some p => if p.isEmpty then none else col.verify_phone_number p
    | none => none
  ({ first_name := safe_strip extracted_data.prenom,
     last_name := safe_strip extracted_data.nom,
     email := email, phone := phone,
     job := safe_strip extracted_data.profession,
     city := safe_strip extracted_data.ville,
     country := country,
     reference := safe_strip extracted_data.identifiant,
     date := safe_strip extracted_data.date,
     verified_email := verified_email,
     verified_domain := verified_domain,
     verified_phone := verified_phone },
   was_email_corrected, phone_error)

/-- `CustomerBusinessService.insert_customer_if_not_exists`. -/
def insert_customer_if_not_exists (col : Collaborators)
    (extracted_data : OcrExtracted) (db : DB) :
    (Option Nat × List Char) × DB :=
  let (customer_data, was_email_corrected, phone_error) :=
    _map_ocr_to_customer col extracted_data
  match phone_error with
  | some err =>
    let (review_id, db') := crud_customer_review_create db customer_data err
    ((some review_id, "customer_review".data), db')
  | none =>
    if was_email_corrected then
      let (review_id, db') :=
        crud_customer_review_create db customer_data "Modifié".data
      ((some review_id, "customer_review".data), db')
    else
      let dup :=
        if truthyOpt customer_data.email || truthyOpt customer_data.phone then
          _check_duplicate_type db customer_data.email customer_data.phone
        else none
      match dup with
      | some duplicate_type =>
        let (review_id, db') :=
          crud_customer_review_create db customer_data duplicate_type
        ((some review_id, "customer_review".data), db')
      | none =>
        let (customer_id, db') := crud_customer_create db customer_data
        ((some customer_id, "customer".data), db')

end SDP

namespace SDP

/-! ## Transfer of a review record (`crud_customer_review.transfer_to_customers`) -/

/-- `crud_customer_file.transfer_files_to_customer`: re-point every file of
the review record (`SET customer_id = %s, customer_review_id = NULL`). -/
def transfer_files_to_customer (files : List FileRow)
    (customer_review_id customer_id : Nat) : List FileRow :=
  files.map (fun f =>
    if f.customer_review_id = some customer_review_id then
      { f with customer_id := some customer_id, customer_review_id := none }
    else f)

/-- One iteration of the physical file-move loop: if the path contains
`pending`, ask the storage collaborator for the new path and update the row
(an empty new path is dropped by `crud_customer_file.update`'s filter). -/
def moveFileStep (movePath : List Char → Nat → List Char) (cid : Nat)
    (files : List FileRow) (f : FileRow) : List FileRow :=
  if strContains f.file_path "pending".data then
    let new_path := movePath f.file_path cid
    if new_path.isEmpty then files
    else files.map (fun g => if g.id = f.id then { g with file_path := new_path } else g)
  else files

/-- `crud_customer_review.transfer_to_customers`.  `movePath` models the
filesystem collaborator `file_storage_service.move_file_to_customer`. -/
def transfer_to_customers (movePath : List Char → Nat → List Char)
    (db : DB) (review_id : Nat) : Option Nat × DB :=
  match db.reviews.find? (fun r => r.id = review_id) with
  | none => (none, db)
  | some review_data =>
    let email := review_data.email
    let existing_customer_id :=
      if truthyOpt email then
        (db.customers.find? (fun c => c.email = email)).map (·.id)
      else none
    match existing_customer_id with
    | some cid =>
      -- merge path
      let files1 := transfer_files_to_customer db.files review_id cid
      let pending := files1.filter (fun f => f.customer_review_id = some review_id)
      let files2 := pending.foldl (moveFileStep movePath cid) files1
      (some cid,
       { db with files := files2,
                 reviews := db.reviews.filter (fun r => !(r.id = review_id)) })
    | none =>
      -- promotion path: copy the non-identity fields into a new customer row
      let customer_data : CustomerData :=
        { first_name := review_data.first_name, last_name := review_data.last_name,
          email := review_data.email, phone := review_data.phone,
          job := review_data.job, city := review_data.city,
          country := review_data.country, reference := review_data.reference,
          date := review_data.date,
          verified_email := review_data.verified_email,
          verified_domain := review_data.verified_domain,
          verified_phone := review_data.verified_phone }
      let (customer_id, db1) := crud_customer_create db customer_data
      let files1 := transfer_files_to_customer db1.files review_id customer_id
      let byCustomer := files1.filter (fun f => f.customer_id = some customer_id)
      let files2 := byCustomer.foldl (moveFileStep movePath customer_id) files1
      (some customer_id,
       { db1 with files := files2,
                  reviews := db1.reviews.filter (fun r => !(r.id = review_id)) })

/-! ## Update-with-validation (customer service / review repository) -/

/-- A string-column entry of an update payload dict: absent key, `None`
value, or a string value. -/
inductive SVal where
  | absent
  | null
  | str (s : List Char)
  deriving Repr, DecidableEq

/-- A bool-column (`verified_*`) entry of an update payload dict. -/
inductive BVal where
  | absent
  | null
  | bool (b : Bool)
  deriving Repr, DecidableEq

/-- The crud update filter `v is not None and v != ""` for string columns. -/
def SVal.keep : SVal → Bool
  | .str s => !s.isEmpty
  | _ => false

/-- The same filter for bool columns (`False != ""` holds in Python, so any
bool value is kept). -/
def BVal.keep : BVal → Bool
  | .bool _ => true
  | _ => false

/-- Python `payload[k] != stored_value` for a string column read back from
the DB (`None` ↔ NULL). -/
def SVal.eqOpt : SVal → Option (List Char) → Bool
  | .null, none => true
  | .str s, some t => s = t
  | _, _ => false

structure UpdatePayload where
  first_name : SVal := .absent
  last_name : SVal := .absent
  email : SVal := .absent
  phone : SVal := .absent
  job : SVal := .absent
  city : SVal := .absent
  country : SVal := .absent
  reference : SVal := .absent
  date : SVal := .absent
  verified_email : BVal := .absent
  verified_domain : BVal := .absent
  verified_phone : BVal := .absent
  deriving Repr, DecidableEq

/-- Apply a kept string-column value. -/
def applyS (cur : Option (List Char)) (v : SVal) : Option (List Char) :=
  match v with
  | .str s => if s.isEmpty then cur else some s
  | _ => cur

/-- Apply a kept bool-column value. -/
def applyB (cur : Option Bool) (v : BVal) : Option Bool :=
  match v with
  | .bool b => some b
  | _ => cur

/-- Does the payload carry at least one value that survives the
`None`/empty filter (`if not clean_data: return False`)? -/
def UpdatePayload.anyKept (p : UpdatePayload) : Bool :=
  p.first_name.keep || p.last_name.keep || p.email.keep || p.phone.keep ||
  p.job.keep || p.city.keep || p.country.keep || p.reference.keep ||
  p.date.keep || p.verified_email.keep || p.verified_domain.keep ||
  p.verified_phone.keep

/-- The SET clause of `crud_customer.update` applied to a row. -/
def applyUpdateCustomer (row : CustomerRow) (p : UpdatePayload) : CustomerRow :=
  { row with
    first_name := applyS row.first_name p.first_name,
    last_name := applyS row.last_name p.last_name,
    email := applyS row.email p.email,
    phone := applyS row.phone p.phone,
    job := applyS row.job p.job,
    city := applyS row.city p.city,
    country := applyS row.country p.country,
    reference := applyS row.reference p.reference,
    date := applyS row.date p.date,
    verified_email := applyB row.verified_email p.verified_email,
    verified_domain := applyB row.verified_domain p.verified_domain,
    verified_phone := applyB row.verified_phone p.verified_phone }

/-- `crud_customer.update`: returns `False` when nothing survives the filter
or no row changes (MySQL affected-rows semantics), `True` otherwise. -/
def crud_customer_update (db : DB) (customer_id : Nat) (p : UpdatePayload) :
    Bool × DB :=
  if !p.anyKept then (false, db)
  else
    let customers' :=
      db.customers.map (fun c =>
        if c.id = customer_id then applyUpdateCustomer c p else c)
    (decide (customers' ≠ db.customers), { db with customers := customers' })

/-- The SET clause of `crud_customer_review.update` applied to a row. -/
def applyUpdateReview (row : ReviewRow) (p : UpdatePayload) : ReviewRow :=
  { row with
    first_name := applyS row.first_name p.first_name,
    last_name := applyS row.last_name p.last_name,
    email := applyS row.email p.email,
    phone := applyS row.phone p.phone,
    job := applyS row.job p.job,
    city := applyS row.city p.city,
    country := applyS row.country p.country,
    reference := applyS row.reference p.reference,
    date := applyS row.date p.date,
    verified_email := applyB row.verified_email p.verified_email,
    verified_domain := applyB row.verified_domain p.verified_domain,
    verified_phone := applyB row.verified_phone p.verified_phone }

/-- `crud_customer_review.update`. -/
def crud_customer_review_update (db : DB) (review_id : Nat) (p : UpdatePayload) :
    Bool × DB :=
  if !p.anyKept then (false, db)
  else
    let reviews' :=
      db.reviews.map (fun r =>
        if r.id = review_id then applyUpdateReview r p else r)
    (decide (reviews' ≠ db.reviews), { db with reviews := reviews' })

/-- The email-revalidation block shared by both update-with-validation
functions: build the effective `update_data` from the payload. -/
def revalidatePayload (col : Collaborators)
    (p : UpdatePayload) (storedEmail storedPhone : Option (List Char)) :
    UpdatePayload :=
  let p1 :=
    if p.email ≠ .absent && !(p.email.eqOpt storedEmail) then
      match p.email with
      | .str e =>
        if e.isEmpty then p
        else
          let (corrected_email, was_corrected, _) := correct_email! e
          let newEmail := if was_corrected then corrected_email else e
          let p' := if was_corrected then { p with email := .str newEmail } else p
          let p' := { p' with
            verified_domain := .bool (col.verify_email_domain newEmail).1 }
          { p' with verified_email := .bool (col.validate_email_sync newEmail) }
      | _ => p
    else p
  if p.phone ≠ .absent && !(p.phone.eqOpt storedPhone) then
    match p.phone with
    | .str ph =>
      if ph.isEmpty then p1
      else
        { p1 with
          verified_phone :=
            match col.verify_phone_number ph with
            | some b => .bool b
            | none => .null }
    | _ => p1
  else p1

/-- `CustomerBusinessService.update_customer_with_validation`. -/
def update_customer_with_validation (col : Collaborators) (customer_id : Nat)
    (customer_data : UpdatePayload) (db : DB) : Bool × DB :=
  match db.customers.find? (fun c => c.id = customer_id) with
  | none => (false, db)
  | some existing_customer =>
    let update_data :=
      revalidatePayload col customer_data
        existing_customer.email existing_customer.phone
    crud_customer_update db customer_id update_data

/-- `CustomerReviewRepository.update_customer_review_with_validation`. -/
def update_customer_review_with_validation (col : Collaborators)
    (review_id : Nat) (customer_data : UpdatePayload) (db : DB) : Bool × DB :=
  match db.reviews.find? (fun r => r.id = review_id) with
  | none => (false, db)
  | some existing_review =>
    let update_data :=
      revalidatePayload col customer_data
        existing_review.email existing_review.phone
    crud_customer_review_update db review_id update_data

end SDP

namespace SDP

/-! ## OCR endpoint page loops (`app/api/endpoints/ocr.py`)

The per-page downstream (classifier + extractor composition) is deterministic
and is passed as a function; the OCR gateway outcome for each page is the
input list (`.ok raw_text` / `.error message`). -/

structure ProcessedPage (α : Type) where
  page_number : Nat
  document_type : DocumentType
  confidence : ℚ
  raw_text : List Char
  extracted_data : α
  deriving Repr, DecidableEq

/-- The page loop of `upload_pdf_for_ocr` (JSON endpoint): a failed page is
still emitted, as UNKNOWN with confidence 0 and an error-bearing text. -/
def processPagesJson {α : Type} (classify : List Char → DocumentType × ℚ)
    (extract : List Char → DocumentType → α) (emptyData : α)
    (ocr : List (Except (List Char) (List Char))) : List (ProcessedPage α) :=
  go 1 ocr
where
  go : Nat → List (Except (List Char) (List Char)) → List (ProcessedPage α)
    | _, [] => []
    | page_number, .ok raw_text :: rest =>
      let (doc_type, confidence) := classify raw_text
      { page_number := page_number, document_type := doc_type,
        confidence := confidence, raw_text := raw_text,
        extracted_data := extract raw_text doc_type } :: go (page_number + 1) rest
    | page_number, .error e :: rest =>
      { page_number := page_number, document_type := .UNKNOWN,
        confidence := 0, raw_text := "Error: ".data ++ e,
        extracted_data := emptyData } :: go (page_number + 1) rest

/-- `DocumentType.value`. -/
def docTypeValue : DocumentType → List Char
  | .BLANK_SHEET => "blank_sheet".data
  | .STUDIO_PARFUMS => "studio_parfums".data
  | .UNKNOWN => "unknown".data

/-- One element of `processed_pages` in `upload_pdf_and_download_csv`. -/
structure CsvLoopPage (α : Type) where
  page_number : Nat
  document_type : List Char
  confidence : ℚ
  raw_text : List Char
  extracted_data : α
  customer_id : Option Nat
  deriving Repr, DecidableEq

/-- The page loop of `upload_pdf_and_download_csv` (CSV endpoint): a failed
page is skipped (`continue`), and studio-parfums pages are inserted through
the customer repository (`insertCustomer`, exceptions already swallowed). -/
def processPagesCsv {α : Type} (classify : List Char → DocumentType × ℚ)
    (extract : List Char → DocumentType → α) (truthy : α → Bool)
    (insertCustomer : α → Option Nat)
    (ocr : List (Except (List Char) (List Char))) : List (CsvLoopPage α) :=
  go 1 ocr
where
  go : Nat → List (Except (List Char) (List Char)) → List (CsvLoopPage α)
    | _, [] => []
    | page_number, .ok raw_text :: rest =>
      let (doc_type, confidence) := classify raw_text
      let extracted_data := extract raw_text doc_type
      let customer_id :=
        if doc_type = .STUDIO_PARFUMS && truthy extracted_data then
          insertCustomer extracted_data
        else none
      { page_number := page_number, document_type := docTypeValue doc_type,
        confidence := confidence, raw_text := raw_text,
        extracted_data := extracted_data, customer_id := customer_id } ::
        go (page_number + 1) rest
    | page_number, .error _ :: rest => go (page_number + 1) rest

end SDP

namespace SDP

/-! ## Claim theorems -/

/-- C8: for a three-page batch of studio-parfums pages where only the second
carries an identifier, `"202201005"`, the generated CSV back-fills the first
page with `"202201001"` and the third with `"202201003"` (detected prefix
`"202201"` plus the zero-padded page position). -/
theorem C8_csv_identifier_backfill :
    generate_studio_parfums_csv
      [{ document_type := "studio_parfums".data,
         extracted_data := some { identifiant := none } },
       { document_type := "studio_parfums".data,
         extracted_data := some { identifiant := some "202201005".data } },
       { document_type := "studio_parfums".data,
         extracted_data := some { identifiant := none } }] =
    ("identifiant;genre;nom;prenom;date;ville;pays;tel;email;profession;date_naissance\n" ++
     "202201001;;;;;;;;;;\n" ++
     "202201005;;;;;;;;;;\n" ++
     "202201003;;;;;;;;;;\n").data := by
  decide

end SDP

namespace SDP

/-- C5 (code bug evidence): the classifier's month alternation is
mojibake-corrupted, so the properly spelled month `février` followed by a
four-digit year earns no 0.3 bonus (score 0), while an unaccented month such
as `janvier` does earn it. -/
theorem C5_classifier_month_mojibake :
    _calculate_blank_sheet_score ("février 2024").data = 0 ∧
    _calculate_blank_sheet_score ("janvier 2024").data = 3 / 10 := by
  have hk1 : blankKeywordCount ("février 2024").data = 0 := by decide
  have hm1 : blankMonthFound ("février 2024").data = false := by decide
  have hk2 : blankKeywordCount ("janvier 2024").data = 0 := by decide
  have hm2 : blankMonthFound ("janvier 2024").data = true := by decide
  constructor
  · rw [_calculate_blank_sheet_score, hk1, hm1]
    norm_num
  · rw [_calculate_blank_sheet_score, hk2, hm2]
    norm_num

end SDP

namespace SDP

/-- C6 (counterexample): a phone string with no digit at all has digit count
0, outside France's 10–10 range, yet `validate_phone_number` returns
`(None, False, None)` — not `(None, False, "invalid_length")` as the claim
demands for every out-of-range digit count. -/
theorem C6_counterexample :
    validate_phone_number ("abc").data (some ("France").data) =
      (none, false, none) ∧
    (clean_phone_number ("abc").data).length = 0 ∧
    (none : Option (List Char)) ≠ some ("invalid_length").data := by
  refine ⟨by decide, by decide, by decide⟩

/-- C6 (amended): both concrete examples hold, and for every phone string
whose stripped digit string is non-empty and every supported country, an
out-of-range digit count yields `(None, False, "invalid_length")` while an
in-range count yields the template-formatted number, with `was_modified` true
iff the formatted string differs from the original input. -/
theorem C6_phone_validation :
    validate_phone_number ("0612345678").data (some ("France").data) =
      (some ("06 12 34 56 78").data, true, none) ∧
    validate_phone_number ("061234").data (some ("France").data) =
      (none, false, some ("invalid_length").data) ∧
    ∀ (phone country : List Char) (rules : PhoneRule),
      PHONE_RULES country = some rules →
      (clean_phone_number phone).isEmpty = false →
      (((clean_phone_number phone).length < rules.min_digits ∨
          rules.max_digits < (clean_phone_number phone).length) →
        validate_phone_number phone (some country) =
          (none, false, some ("invalid_length").data)) ∧
      ((rules.min_digits ≤ (clean_phone_number phone).length ∧
          (clean_phone_number phone).length ≤ rules.max_digits) →
        validate_phone_number phone (some country) =
          (some (format_phone_number (clean_phone_number phone) country),
           !(phone == format_phone_number (clean_phone_number phone) country),
           none)) := by
  refine ⟨by decide, by decide, ?_⟩
  intro phone country rules hrules hclean
  have hphone : phone.isEmpty = false := by
    cases phone with
    | nil => simp [clean_phone_number] at hclean
    | cons c t => rfl
  have hcountry : country.isEmpty = false := by
    cases country with
    | nil => rw [show ([] : List Char) = ("").data from rfl] at hrules; simp [PHONE_RULES] at hrules
    | cons c t => rfl
  constructor
  · intro hrange
    have hlt : ((clean_phone_number phone).length < rules.min_digits ||
        rules.max_digits < (clean_phone_number phone).length) = true := by
      rcases hrange with h | h <;> simp [h]
    simp [validate_phone_number, hphone, hclean, hcountry, hrules, hlt]
  · intro hrange
    have hlt : ((clean_phone_number phone).length < rules.min_digits ||
        rules.max_digits < (clean_phone_number phone).length) = false := by
      simp
      omega
    simp [validate_phone_number, hphone, hclean, hcountry, hrules, hlt]

/-- C6 witness: the general part of `C6_phone_validation` applied to the
concrete in-range input `"07 12 34 56 78"` for France and the out-of-range
input `"12345"` for Tunisie. -/
theorem C6_phone_validation_witness :
    validate_phone_number ("07 12 34 56 78").data (some ("France").data) =
      (some ("07 12 34 56 78").data, false, none) ∧
    validate_phone_number ("12345").data (some ("Tunisie").data) =
      (none, false, some ("invalid_length").data) := by
  constructor
  · have h := (C6_phone_validation.2.2 ("07 12 34 56 78").data ("France").data
      ⟨10, 10, 5, (" ").data, [2, 2, 2, 2, 2], none⟩ (by decide) (by decide)).2
      (by decide)
    rw [h]
    decide
  · have h := (C6_phone_validation.2.2 ("12345").data ("Tunisie").data
      ⟨8, 8, 3, (" ").data, [2, 3, 3], none⟩ (by decide) (by decide)).1
      (by decide)
    rw [h]

end SDP

namespace SDP

/-! ### Helper lemmas for the identifier claims -/

theorem findSome?_eq_some_exists {α β : Type} (l : List α) (f : α → Option β)
    (b : β) (h : l.findSome? f = some b) : ∃ a, a ∈ l ∧ f a = some b := by
  induction l with
  | nil => simp [List.findSome?] at h
  | cons x xs ih =>
    rw [List.findSome?] at h
    cases hx : f x with
    | some y =>
      rw [hx] at h
      exact ⟨x, List.mem_cons_self x xs, by simp [hx, ← h]⟩
    | none =>
      rw [hx] at h
      obtain ⟨a, ha, hfa⟩ := ih h
      exact ⟨a, List.mem_cons_of_mem x ha, hfa⟩

theorem head?_mem {α : Type} {l : List α} {a : α} (h : l.head? = some a) :
    a ∈ l := by
  cases l with
  | nil => cases h
  | cons x xs =>
    simp only [List.head?_cons, Option.some.injEq] at h
    rw [← h]
    exact List.mem_cons_self x xs

theorem all_of_subset {p : Char → Bool} {l₁ l₂ : List Char}
    (hsub : l₁ ⊆ l₂) (h : l₂.all p = true) : l₁.all p = true := by
  simp only [List.all_eq_true] at *
  exact fun c hc => h c (hsub hc)

theorem all_dropWhile {p q : Char → Bool} {l : List Char}
    (h : l.all q = true) : (l.dropWhile p).all q = true := by
  induction l with
  | nil => simp [List.dropWhile]
  | cons c t ih =>
    simp only [List.all_cons, Bool.and_eq_true] at h
    rw [List.dropWhile]
    cases p c with
    | true => exact ih h.2
    | false => simp [List.all_cons, h.1, h.2]

theorem mem_findall_ident {line r : List Char} (h : r ∈ findall_ident line) :
    r.all isDigitChar = true ∧ 8 ≤ r.length ∧ r.length ≤ 10 := by
  unfold findall_ident at h
  have := List.mem_filter.mp h
  simp only [Bool.and_eq_true, decide_eq_true_eq] at this
  exact ⟨this.2.1.1, this.2.1.2, this.2.2⟩

theorem mem_spacedPairs {cond : List Char → Bool} {line : List Char}
    {p : List Char × List Char} (h : p ∈ spacedPairs cond line) :
    p.1.all isDigitChar = true ∧ p.1.length = 4 ∧ cond p.1 = true ∧
      p.2.all isDigitChar = true ∧ p.2.length = 5 := by
  unfold spacedPairs at h
  generalize hb : chunkClasses line = blocks at h
  clear hb
  induction blocks using SDP.spacedPairs.go.induct cond with
  | case1 b0 b1 b2 rest hcond ih =>
    rw [spacedPairs.go] at h
    rw [if_pos hcond] at h
    simp only [Bool.and_eq_true, decide_eq_true_eq] at hcond
    obtain ⟨⟨⟨⟨⟨h1, h2⟩, h3⟩, h4⟩, h5⟩, h6⟩ := hcond
    rcases List.mem_cons.mp h with heq | hmem
    · subst heq
      exact ⟨h1, h2, h3, h5, h6⟩
    · exact ih hmem
  | case2 b0 b1 b2 rest hcond ih =>
    rw [spacedPairs.go, if_neg hcond] at h
    exact ih h
  | case3 bs hne =>
    rw [spacedPairs.go] at h
    · simp at h
    · exact hne

theorem identFromRaw_sound {raw r : List Char}
    (hall : raw.all isDigitChar = true) (hlen : raw.length ≤ 10)
    (h : identFromRaw raw = some r) :
    r.all isDigitChar = true ∧ ("20").data.isPrefixOf r = true ∧ r.length ≤ 11 := by
  unfold identFromRaw at h
  have hallI : (pyLstrip ['0'] raw).all isDigitChar = true := all_dropWhile hall
  have hlenI : (pyLstrip ['0'] raw).length ≤ 10 :=
    le_trans (sdp_length_dropWhile_le _ raw) hlen
  revert h hallI hlenI
  generalize (pyLstrip ['0'] raw) = ident
  intro h hallI hlenI
  by_cases h20 : ("20").data.isPrefixOf ident = true
  · rw [if_pos h20] at h
    injection h with h
    subst h
    exact ⟨hallI, h20, by omega⟩
  · rw [if_neg h20] at h
    by_cases h6 : ("6").data.isPrefixOf ident = true
    · rw [if_pos h6] at h
      injection h with h
      subst h
      have htail : ident.tail.all isDigitChar = true := by
        cases ident with
        | nil => simp
        | cons c t =>
          simp only [List.all_cons, Bool.and_eq_true] at hallI
          exact hallI.2
      have htlen : ident.tail.length ≤ 9 := by
        cases ident with
        | nil => simp
        | cons c t =>
          simp only [List.length_cons] at hlenI
          simp only [List.tail_cons]
          omega
      refine ⟨?_, ?_, ?_⟩
      · simp [List.all_cons, htail, isDigitChar]
      · simp [List.isPrefixOf]
      · simp only [List.length_cons]
        omega
    · rw [if_neg h6] at h
      by_cases h62 : ("62").data.isPrefixOf ident = true
      · rw [if_pos h62] at h
        injection h with h
        subst h
        have hdrop : (ident.drop 2).all isDigitChar = true :=
          all_of_subset (List.drop_subset 2 ident) hallI
        have hdlen : (ident.drop 2).length ≤ 8 := by
          rw [List.length_drop]
          omega
        refine ⟨?_, ?_, ?_⟩
        · simp [List.all_cons, hdrop, isDigitChar]
        · simp [List.isPrefixOf]
        · simp only [List.length_cons]
          omega
      · rw [if_neg h62] at h
        cases h

/-- Soundness of the line scan of `_extract_identifiant`. -/
theorem extract_go_sound (lines : List (List Char)) (r : List Char)
    (h : _extract_identifiant.go lines = some r) :
    r.all isDigitChar = true ∧ ("20").data.isPrefixOf r = true ∧ r.length ≤ 11 := by
  induction lines with
  | nil => rw [_extract_identifiant.go] at h; cases h
  | cons line rest ih =>
    rw [_extract_identifiant.go] at h
    cases h1 : (findall_ident line).findSome? identFromRaw with
    | some r1 =>
      rw [h1] at h
      injection h with h
      subst h
      obtain ⟨raw, hmem, hraw⟩ := findSome?_eq_some_exists _ _ _ h1
      obtain ⟨hall, _, hlen⟩ := mem_findall_ident hmem
      exact identFromRaw_sound hall hlen hraw
    | none =>
      rw [h1] at h
      cases h2 : (spacedPairs (fun _ => true) line).findSome?
          (fun p =>
            let combined := p.1 ++ p.2
            if ("20").data.isPrefixOf combined then some combined else none) with
      | some r2 =>
        rw [h2] at h
        injection h with h
        subst h
        obtain ⟨p, hmem, hp⟩ := findSome?_eq_some_exists _ _ _ h2
        obtain ⟨ha1, hl1, _, ha2, hl2⟩ := mem_spacedPairs hmem
        simp only at hp
        by_cases hpre : ("20").data.isPrefixOf (p.1 ++ p.2) = true
        · rw [if_pos hpre] at hp
          injection hp with hp
          subst hp
          refine ⟨?_, hpre, ?_⟩
          · simp only [List.all_append, Bool.and_eq_true]
            exact ⟨ha1, ha2⟩
          · rw [List.length_append]
            omega
        · rw [if_neg hpre] at hp
          cases hp
      | none =>
        rw [h2] at h
        cases h3 : (spacedPairs (fun b => ("20").data.isPrefixOf b) line).head? with
        | some p =>
          rw [h3] at h
          injection h with h
          subst h
          obtain ⟨ha1, hl1, hc1, ha2, hl2⟩ := mem_spacedPairs (head?_mem h3)
          refine ⟨?_, ?_, ?_⟩
          · simp only [List.all_append, Bool.and_eq_true]
            exact ⟨ha1, ha2⟩
          · exact List.isPrefixOf_iff_prefix.mpr
              (List.IsPrefix.trans (List.isPrefixOf_iff_prefix.mp hc1)
                (List.prefix_append p.1 p.2))
          · rw [List.length_append]
            omega
        | none =>
          rw [h3] at h
          exact ih h

/-- C3 (counterexample): a bare 10-digit identifier already starting with
`20` is returned whole by `_extract_identifiant`: the result has length 10,
refuting the claimed bound of at most 9. -/
theorem C3_counterexample :
    _extract_identifiant ("2012345678").data = some (("2012345678").data) ∧
    ¬ (("2012345678").data.length ≤ 9) := by
  refine ⟨by decide, by decide⟩

/-- C3 (amended): every non-null result of `_extract_identifiant` is a digit
string starting with `20` of length at most 11 (not 9: the nominal branch
passes 10-digit identifiers through whole, and the `6`-repair branch can
produce 11 digits), while `_clean_identifiant` does guarantee the `≤ 9`
bound. -/
theorem C3_identifier_cleaning :
    (∀ text r : List Char, _extract_identifiant text = some r →
      r.all isDigitChar = true ∧ ("20").data.isPrefixOf r = true ∧
        r.length ≤ 11) ∧
    (∀ v : Option (List Char),
      _clean_identifiant v = [] ∨
        ((_clean_identifiant v).all isDigitChar = true ∧
         ("20").data.isPrefixOf (_clean_identifiant v) = true ∧
         (_clean_identifiant v).length ≤ 9)) := by
  constructor
  · intro text r h
    exact extract_go_sound _ r h
  · intro v
    cases v with
    | none => left; rfl
    | some s =>
      simp only [_clean_identifiant]
      by_cases hs : s.isEmpty
      · left
        rw [if_pos hs]
      · right
        rw [if_neg hs]
        have hall0 : (s.filter isDigitChar).all isDigitChar = true := by
          simp only [List.all_eq_true]
          intro c hc
          exact (List.mem_filter.mp hc).2
        revert hall0
        generalize (s.filter isDigitChar) = d0
        intro hall0
        by_cases h9 : d0.length ≥ 9
        · rw [if_pos h9]
          have halld : (d0.take 9).all isDigitChar = true :=
            all_of_subset (List.take_subset 9 d0) hall0
          have hlend : (d0.take 9).length = 9 := by
            rw [List.length_take]
            omega
          by_cases hp : ("20").data.isPrefixOf (d0.take 9) = true
          · rw [if_pos hp]
            exact ⟨halld, hp, by omega⟩
          · rw [if_neg hp]
            have hdropall : ((d0.take 9).drop 2).all isDigitChar = true :=
              all_of_subset (List.drop_subset 2 (d0.take 9)) halld
            refine ⟨?_, ?_, ?_⟩
            · simp [List.all_cons, hdropall, isDigitChar]
            · simp [List.isPrefixOf]
            · simp only [List.length_cons, List.length_drop]
              omega
        · rw [if_neg h9]
          have hlen0 : d0.length ≤ 8 := by omega
          by_cases hp : ("20").data.isPrefixOf d0 = true
          · rw [if_pos hp]
            exact ⟨hall0, hp, by omega⟩
          · rw [if_neg hp]
            have hdropall : (d0.drop 2).all isDigitChar = true :=
              all_of_subset (List.drop_subset 2 d0) hall0
            refine ⟨?_, ?_, ?_⟩
            · simp [List.all_cons, hdropall, isDigitChar]
            · simp [List.isPrefixOf]
            · simp only [List.length_cons, List.length_drop]
              omega

/-- C3 witness: the amended theorem applied to the concrete OCR text
`"2022 01008"` (space-repaired identifier) and to the concrete cleaner input
`"abc"`. -/
theorem C3_identifier_cleaning_witness :
    (("202201008").data.all isDigitChar = true ∧
     ("20").data.isPrefixOf ("202201008").data = true ∧
     ("202201008").data.length ≤ 11) ∧
    (_clean_identifiant (some ("abc").data) = [] ∨
      ((_clean_identifiant (some ("abc").data)).all isDigitChar = true ∧
       ("20").data.isPrefixOf (_clean_identifiant (some ("abc").data)) = true ∧
       (_clean_identifiant (some ("abc").data)).length ≤ 9)) :=
  ⟨C3_identifier_cleaning.1 ("2022 01008").data ("202201008").data (by decide),
   C3_identifier_cleaning.2 (some ("abc").data)⟩

end SDP

namespace SDP

/-! ### Helper lemmas for the batch-resilience claim -/

/-- What one page becomes in the JSON endpoint loop. -/
def renderJson {α : Type} (classify : List Char → DocumentType × ℚ)
    (extract : List Char → DocumentType → α) (emptyData : α)
    (page_number : Nat) : Except (List Char) (List Char) → ProcessedPage α
  | .ok raw_text =>
    { page_number := page_number, document_type := (classify raw_text).1,
      confidence := (classify raw_text).2, raw_text := raw_text,
      extracted_data := extract raw_text (classify raw_text).1 }
  | .error e =>
    { page_number := page_number, document_type := .UNKNOWN,
      confidence := 0, raw_text := ("Error: ").data ++ e,
      extracted_data := emptyData }

theorem processPagesJson_go_get? {α : Type}
    (classify : List Char → DocumentType × ℚ)
    (extract : List Char → DocumentType → α) (emptyData : α) :
    ∀ (l : List (Except (List Char) (List Char))) (n i : Nat),
      (processPagesJson.go classify extract emptyData n l)[i]? =
        (l[i]?).map (renderJson classify extract emptyData (n + i)) := by
  intro l
  induction l with
  | nil => intro n i; rfl
  | cons x rest ih =>
    intro n i
    cases i with
    | zero =>
      cases x with
      | ok raw =>
        simp only [processPagesJson.go, List.getElem?_cons_zero, Option.map_some',
          Nat.add_zero]
        rfl
      | error e =>
        simp only [processPagesJson.go, List.getElem?_cons_zero, Option.map_some',
          Nat.add_zero]
        rfl
    | succ j =>
      have harith : n + (j + 1) = (n + 1) + j := by omega
      cases x with
      | ok raw =>
        simp only [processPagesJson.go, List.getElem?_cons_succ]
        rw [harith]
        exact ih (n + 1) j
      | error e =>
        simp only [processPagesJson.go, List.getElem?_cons_succ]
        rw [harith]
        exact ih (n + 1) j

theorem processPagesJson_go_length {α : Type}
    (classify : List Char → DocumentType × ℚ)
    (extract : List Char → DocumentType → α) (emptyData : α) :
    ∀ (l : List (Except (List Char) (List Char))) (n : Nat),
      (processPagesJson.go classify extract emptyData n l).length = l.length := by
  intro l
  induction l with
  | nil => intro n; rfl
  | cons x rest ih =>
    intro n
    cases x with
    | ok raw =>
      rw [processPagesJson.go]
      simp only [List.length_cons]
      rw [ih (n+1)]
    | error e =>
      rw [processPagesJson.go]
      simp only [List.length_cons]
      rw [ih (n+1)]

/-- What one successful page becomes in the CSV endpoint loop. -/
def renderCsvOk {α : Type} (classify : List Char → DocumentType × ℚ)
    (extract : List Char → DocumentType → α) (truthy : α → Bool)
    (insertCustomer : α → Option Nat) (page_number : Nat)
    (raw_text : List Char) : CsvLoopPage α :=
  let doc_type := (classify raw_text).1
  let extracted_data := extract raw_text doc_type
  { page_number := page_number, document_type := docTypeValue doc_type,
    confidence := (classify raw_text).2, raw_text := raw_text,
    extracted_data := extracted_data,
    customer_id :=
      if doc_type = .STUDIO_PARFUMS && truthy extracted_data then
        insertCustomer extracted_data
      else none }

theorem processPagesCsv_go_append {α : Type}
    (classify : List Char → DocumentType × ℚ)
    (extract : List Char → DocumentType → α) (truthy : α → Bool)
    (insertCustomer : α → Option Nat) :
    ∀ (l₁ l₂ : List (Except (List Char) (List Char))) (n : Nat),
      processPagesCsv.go classify extract truthy insertCustomer n (l₁ ++ l₂) =
        processPagesCsv.go classify extract truthy insertCustomer n l₁ ++
          processPagesCsv.go classify extract truthy insertCustomer (n + l₁.length) l₂ := by
  intro l₁
  induction l₁ with
  | nil =>
    intro l₂ n
    simp only [List.nil_append, processPagesCsv.go, List.length_nil, Nat.add_zero]
  | cons x rest ih =>
    intro l₂ n
    have harith : n + (rest.length + 1) = (n + 1) + rest.length := by omega
    cases x with
    | ok raw =>
      simp only [List.cons_append, processPagesCsv.go, List.length_cons, List.append_eq]
      rw [ih l₂ (n+1), harith]
    | error e =>
      simp only [List.cons_append, processPagesCsv.go, List.length_cons, List.append_eq]
      rw [ih l₂ (n+1), harith]

theorem mem_processPagesCsv_go_bounds {α : Type}
    (classify : List Char → DocumentType × ℚ)
    (extract : List Char → DocumentType → α) (truthy : α → Bool)
    (insertCustomer : α → Option Nat) :
    ∀ (l : List (Except (List Char) (List Char))) (n : Nat) (p : CsvLoopPage α),
      p ∈ processPagesCsv.go classify extract truthy insertCustomer n l →
        n ≤ p.page_number ∧ p.page_number < n + l.length := by
  intro l
  induction l with
  | nil => intro n p h; rw [processPagesCsv.go] at h; cases h
  | cons x rest ih =>
    intro n p h
    cases x with
    | ok raw =>
      rw [processPagesCsv.go] at h
      rcases List.mem_cons.mp h with heq | hmem
      · subst heq
        simp only [List.length_cons]
        omega
      · have := ih (n+1) p hmem
        simp only [List.length_cons]
        omega
    | error e =>
      rw [processPagesCsv.go] at h
      have := ih (n+1) p h
      simp only [List.length_cons]
      omega

end SDP

namespace SDP

/-- The OCR outcome list of an N-page batch in which the call fails on
exactly page `k`: pages before and after succeed with the texts of `ok`. -/
def failingOcr (ok : List (List Char)) (k : Nat) (msg : List Char) :
    List (Except (List Char) (List Char)) :=
  (ok.take (k - 1)).map Except.ok ++
    Except.error msg :: (ok.drop k).map Except.ok

theorem renderJson_page_number {α : Type}
    (classify : List Char → DocumentType × ℚ)
    (extract : List Char → DocumentType → α) (emptyData : α)
    (n : Nat) (e : Except (List Char) (List Char)) :
    (renderJson classify extract emptyData n e).page_number = n := by
  cases e <;> rfl

theorem failingOcr_getElem? (ok : List (List Char)) (k : Nat) (msg : List Char)
    (hk1 : 1 ≤ k) (hk2 : k ≤ ok.length) (i : Nat) :
    (failingOcr ok k msg)[i]? =
      if i = k - 1 then some (Except.error msg) else ok[i]?.map Except.ok := by
  unfold failingOcr
  have hpre : ((ok.take (k - 1)).map
      (Except.ok : List Char → Except (List Char) (List Char))).length = k - 1 := by
    simp [List.length_take]
    omega
  by_cases hi : i < k - 1
  · rw [if_neg (by omega)]
    rw [List.getElem?_append_left (by omega)]
    rw [List.getElem?_map, List.getElem?_take, if_pos hi]
  · by_cases he : i = k - 1
    · subst he
      rw [if_pos rfl]
      rw [List.getElem?_append_right (by omega)]
      rw [hpre, Nat.sub_self]
      simp [List.getElem?_cons_zero]
    · rw [if_neg he]
      have hik : k ≤ i := by omega
      rw [List.getElem?_append_right (by omega)]
      rw [hpre]
      have : i - (k - 1) = (i - k) + 1 := by omega
      rw [this, List.getElem?_cons_succ, List.getElem?_map, List.getElem?_drop]
      congr 2
      omega

/-- C2 (amended): with OCR failing on exactly page `k` of an N-page batch,
the JSON endpoint (`upload_pdf_for_ocr`) emits exactly N `ProcessedPage`s in
page order, page `k` as UNKNOWN / confidence 0 / error-bearing text, the other
pages exactly as in the failure-free run; the CSV endpoint
(`upload_pdf_and_download_csv`) instead SKIPS the failed page (`continue`),
producing the failure-free page list with page `k` removed (N−1 entries). -/
theorem C2_batch_resilience {α : Type}
    (classify : List Char → DocumentType × ℚ)
    (extract : List Char → DocumentType → α) (emptyData : α)
    (truthy : α → Bool) (insertCustomer : α → Option Nat)
    (ok : List (List Char)) (k : Nat) (msg : List Char)
    (hk1 : 1 ≤ k) (hk2 : k ≤ ok.length) :
    (processPagesJson classify extract emptyData (failingOcr ok k msg)).length
        = ok.length ∧
    (∀ i, i < ok.length →
      ((processPagesJson classify extract emptyData (failingOcr ok k msg))[i]?).map
          (fun p => p.page_number) = some (i + 1)) ∧
    (processPagesJson classify extract emptyData (failingOcr ok k msg))[k - 1]? =
      some { page_number := k, document_type := .UNKNOWN, confidence := 0,
             raw_text := ("Error: ").data ++ msg, extracted_data := emptyData } ∧
    (∀ i, i ≠ k - 1 →
      (processPagesJson classify extract emptyData (failingOcr ok k msg))[i]? =
        (processPagesJson classify extract emptyData (ok.map Except.ok))[i]?) ∧
    processPagesCsv classify extract truthy insertCustomer (failingOcr ok k msg) =
      (processPagesCsv classify extract truthy insertCustomer
          (ok.map Except.ok)).filter (fun p => p.page_number != k) := by
  have hflen : (failingOcr ok k msg).length = ok.length := by
    unfold failingOcr
    simp [List.length_append, List.length_take, List.length_drop]
    omega
  have hgo_get := processPagesJson_go_get? classify extract emptyData
  have hfail := failingOcr_getElem? ok k msg hk1 hk2
  refine ⟨?_, ?_, ?_, ?_, ?_⟩
  · show (processPagesJson.go classify extract emptyData 1 (failingOcr ok k msg)).length = _
    rw [processPagesJson_go_length, hflen]
  · intro i hi
    show ((processPagesJson.go classify extract emptyData 1 (failingOcr ok k msg))[i]?).map
      (fun p => p.page_number) = some (i + 1)
    rw [hgo_get, hfail i]
    by_cases he : i = k - 1
    · rw [if_pos he]
      simp [renderJson_page_number]
      omega
    · rw [if_neg he]
      cases hok : ok[i]? with
      | none =>
        have hlen := List.getElem?_eq_none_iff.mp hok
        omega
      | some x =>
        simp [hok, renderJson_page_number]
        omega
  · show (processPagesJson.go classify extract emptyData 1 (failingOcr ok k msg))[k-1]? = _
    rw [hgo_get, hfail (k-1), if_pos rfl]
    have h1k : 1 + (k - 1) = k := by omega
    rw [h1k]
    rfl
  · intro i hne
    show (processPagesJson.go classify extract emptyData 1 (failingOcr ok k msg))[i]? =
      (processPagesJson.go classify extract emptyData 1 (ok.map Except.ok))[i]?
    rw [hgo_get, hgo_get, hfail i, if_neg hne, List.getElem?_map]
  · show processPagesCsv.go classify extract truthy insertCustomer 1 (failingOcr ok k msg) = _
    have hx : k - 1 < ok.length := by omega
    have hsplit : ok.map (Except.ok : List Char → Except (List Char) (List Char)) =
        (ok.take (k-1)).map Except.ok ++
          Except.ok (ok[k-1]) :: (ok.drop k).map Except.ok := by
      conv_lhs => rw [← List.take_append_drop (k-1) ok]
      rw [List.map_append, List.drop_eq_getElem_cons hx]
      have : k - 1 + 1 = k := by omega
      rw [this]
      rfl
    have hpre : ((ok.take (k - 1)).map
        (Except.ok : List Char → Except (List Char) (List Char))).length = k - 1 := by
      simp [List.length_take]
      omega
    unfold failingOcr
    rw [processPagesCsv_go_append, hsplit]
    simp only [processPagesCsv]
    rw [processPagesCsv_go_append, hpre]
    rw [List.filter_append]
    have h1k : 1 + (k - 1) = k := by omega
    rw [h1k]
    -- the error page is skipped on the left
    rw [show processPagesCsv.go classify extract truthy insertCustomer k
          (Except.error msg :: (ok.drop k).map Except.ok) =
        processPagesCsv.go classify extract truthy insertCustomer (k+1)
          ((ok.drop k).map Except.ok) from rfl]
    -- the ok page k is rendered then filtered out on the right
    rw [show processPagesCsv.go classify extract truthy insertCustomer k
          (Except.ok (ok[k-1]) :: (ok.drop k).map Except.ok) =
        renderCsvOk classify extract truthy insertCustomer k (ok[k-1]) ::
          processPagesCsv.go classify extract truthy insertCustomer (k+1)
            ((ok.drop k).map Except.ok) from rfl]
    rw [List.filter_cons]
    have hpagek : (renderCsvOk classify extract truthy insertCustomer k
        (ok[k-1])).page_number = k := rfl
    rw [hpagek]
    simp only [bne_self_eq_false, if_false, cond_false]
    congr 1
    · symm
      apply List.filter_eq_self.mpr
      intro p hp
      have hb := mem_processPagesCsv_go_bounds classify extract truthy insertCustomer
        _ 1 p hp
      simp only [List.length_map, List.length_take] at hb
      have hne : p.page_number ≠ k := by omega
      simpa [bne_iff_ne]
    · symm
      apply List.filter_eq_self.mpr
      intro p hp
      have := mem_processPagesCsv_go_bounds classify extract truthy insertCustomer
        _ (k+1) p hp
      have : p.page_number ≠ k := by omega
      simpa [bne_iff_ne]

end SDP

namespace SDP

/-- C2 (counterexample): in the CSV endpoint loop (`upload_pdf_and_download_csv`,
one of the claim's two cited code sites), a 5-page batch whose page 3 fails
produces only 4 entries, not 5: the `continue` drops the failed page. -/
theorem C2_counterexample :
    (processPagesCsv (fun _ => (DocumentType.UNKNOWN, (0 : ℚ))) (fun _ _ => ())
        (fun _ => false) (fun _ => none)
        (failingOcr [("p1").data, ("p2").data, ("p3").data, ("p4").data,
          ("p5").data] 3 ("timeout").data)).length = 4 ∧
    (4 : Nat) ≠ 5 := by
  refine ⟨rfl, by decide⟩

/-- C2 witness: the amended theorem applied to a concrete 5-page batch
failing on page 3. -/
theorem C2_batch_resilience_witness :
    (processPagesJson (fun _ => (DocumentType.UNKNOWN, (0 : ℚ))) (fun _ _ => ()) ()
        (failingOcr [("p1").data, ("p2").data, ("p3").data, ("p4").data,
          ("p5").data] 3 ("timeout").data)).length = 5 ∧
    (processPagesJson (fun _ => (DocumentType.UNKNOWN, (0 : ℚ))) (fun _ _ => ()) ()
        (failingOcr [("p1").data, ("p2").data, ("p3").data, ("p4").data,
          ("p5").data] 3 ("timeout").data))[2]? =
      some { page_number := 3, document_type := .UNKNOWN, confidence := 0,
             raw_text := ("Error: timeout").data, extracted_data := () } := by
  have h := C2_batch_resilience (fun _ => (DocumentType.UNKNOWN, (0 : ℚ)))
    (fun _ _ => ()) () (fun _ => false) (fun _ => none)
    [("p1").data, ("p2").data, ("p3").data, ("p4").data, ("p5").data]
    3 ("timeout").data (by decide) (by decide)
  exact ⟨h.1, h.2.2.1⟩

end SDP

namespace SDP

/-- Concrete collaborator bundle for closed instances (every external check
declines). -/
def stubCollaborators : Collaborators :=
  { verify_email_domain := fun _ => (false, []),
    validate_email_sync := fun _ => false,
    verify_phone_number := fun _ => none }

/-- The C1 candidate: only a French phone in plain digit form and the country,
everything else empty. -/
def c1_input : OcrExtracted :=
  { tel := some (("0612345678").data), pays := some (("France").data) }

/-- C1 (counterexample): a candidate whose phone was merely reformatted
(`"0612345678"` rendered `"06 12 34 56 78"`) satisfies the claim's
hypotheses — no `invalid_length`, no email correction, no duplicate — yet is
routed to `customers_review` with type `Modifié`; no Customer row is
created. -/
theorem C1_counterexample :
    (validate_phone_number (("0612345678").data) (some (("France").data))).2.2 ≠
      some (("invalid_length").data) ∧
    (_map_ocr_to_customer stubCollaborators c1_input).2.1 = false ∧
    (insert_customer_if_not_exists stubCollaborators c1_input {}).1.2 =
      ("customer_review").data ∧
    (insert_customer_if_not_exists stubCollaborators c1_input {}).2.customers = [] ∧
    (insert_customer_if_not_exists stubCollaborators c1_input {}).2.reviews.map
      (fun r => r.type) = [("Modifié").data] := by
  refine ⟨by decide, by decide, by decide, by decide, by decide⟩

/-- C1 (amended): when `_map_ocr_to_customer` reports no phone error at all
(neither `invalid_length` nor a mere reformatting, which routes to review as
`Modifié`), no email correction, and the duplicate check finds nothing, the
candidate is inserted as a new Customer row — the mapped data appended via
`crud_customer.create` — and no ReviewRecord is created, even when every
extracted field is empty. -/
theorem C1_insert_new_customer (col : Collaborators) (x : OcrExtracted) (db : DB)
    (hpe : (_map_ocr_to_customer col x).2.2 = none)
    (hwec : (_map_ocr_to_customer col x).2.1 = false)
    (hdup : _check_duplicate_type db (_map_ocr_to_customer col x).1.email
      (_map_ocr_to_customer col x).1.phone = none) :
    insert_customer_if_not_exists col x db =
      ((some (crud_customer_create db (_map_ocr_to_customer col x).1).1,
        ("customer").data),
       (crud_customer_create db (_map_ocr_to_customer col x).1).2) ∧
    (insert_customer_if_not_exists col x db).2.reviews = db.reviews ∧
    (insert_customer_if_not_exists col x db).2.customers.length =
      db.customers.length + 1 := by
  generalize hm : _map_ocr_to_customer col x = m
  rw [hm] at hpe hwec hdup
  obtain ⟨cd, wec, pe⟩ := m
  simp only at hpe hwec hdup
  subst hpe
  subst hwec
  have hmain : insert_customer_if_not_exists col x db =
      ((some (crud_customer_create db cd).1, ("customer").data),
       (crud_customer_create db cd).2) := by
    unfold insert_customer_if_not_exists
    rw [hm]
    cases htr : truthyOpt cd.email || truthyOpt cd.phone with
    | true => simp [htr, hdup]
    | false => simp [htr]
  refine ⟨hmain, ?_, ?_⟩
  · rw [hmain]
    rfl
  · rw [hmain]
    show (db.customers ++ [_]).length = db.customers.length + 1
    simp

/-- C1 witness: the amended theorem at the all-empty candidate — an
empty-but-present Customer row is still inserted. -/
theorem C1_insert_new_customer_witness :
    insert_customer_if_not_exists stubCollaborators {} {} =
      ((some (crud_customer_create {} (_map_ocr_to_customer stubCollaborators {}).1).1,
        ("customer").data),
       (crud_customer_create {} (_map_ocr_to_customer stubCollaborators {}).1).2) ∧
    (insert_customer_if_not_exists stubCollaborators {} {}).2.reviews = ({} : DB).reviews ∧
    (insert_customer_if_not_exists stubCollaborators {} {}).2.customers.length =
      ({} : DB).customers.length + 1 := by
  have h := C1_insert_new_customer stubCollaborators {} {}
    (by decide) (by decide) (by decide)
  exact h

end SDP

namespace SDP

theorem transfer_files_no_pending (files : List FileRow) (rid cid : Nat) :
    (transfer_files_to_customer files rid cid).filter
      (fun f => f.customer_review_id = some rid) = [] := by
  rw [List.filter_eq_nil]
  intro f hf
  obtain ⟨orig, horig, heq⟩ := List.mem_map.mp hf
  by_cases hm : orig.customer_review_id = some rid
  · rw [if_pos (by simp [hm])] at heq
    rw [← heq]
    simp
  · rw [if_neg (by simpa using hm)] at heq
    rw [← heq]
    simpa using hm

/-- C7: transferring a review record whose non-empty email exactly matches an
existing Customer returns that Customer's id, inserts no Customer row,
re-points every attached file row to the existing Customer, and deletes the
review record. -/
theorem C7_transfer_merge (movePath : List Char → Nat → List Char) (db : DB)
    (review_id : Nat) (r : ReviewRow) (e : List Char) (c : CustomerRow)
    (hr : db.reviews.find? (fun x => x.id = review_id) = some r)
    (he : r.email = some e) (hne : e.isEmpty = false)
    (hc : db.customers.find? (fun x => x.email = some e) = some c) :
    transfer_to_customers movePath db review_id =
      (some c.id,
       { db with
         files := db.files.map (fun f =>
           if f.customer_review_id = some review_id then
             { f with customer_id := some c.id, customer_review_id := none }
           else f),
         reviews := db.reviews.filter (fun x => !(x.id = review_id)) }) ∧
    (transfer_to_customers movePath db review_id).2.customers = db.customers ∧
    (∀ f ∈ (transfer_to_customers movePath db review_id).2.files,
      f.customer_review_id ≠ some review_id) := by
  have hmain : transfer_to_customers movePath db review_id =
      (some c.id,
       { db with
         files := transfer_files_to_customer db.files review_id c.id,
         reviews := db.reviews.filter (fun x => !(x.id = review_id)) }) := by
    unfold transfer_to_customers
    rw [hr]
    dsimp only
    rw [he]
    have htr : truthyOpt (some e) = true := by simpa [truthyOpt] using hne
    rw [if_pos htr, hc]
    dsimp only [Option.map_some']
    rw [transfer_files_no_pending]
    rfl
  refine ⟨?_, ?_, ?_⟩
  · rw [hmain]
    rfl
  · rw [hmain]
  · rw [hmain]
    intro f hf
    simp only at hf
    obtain ⟨orig, horig, heq⟩ := List.mem_map.mp hf
    by_cases hm : orig.customer_review_id = some review_id
    · rw [if_pos (by simp [hm])] at heq
      rw [← heq]
      simp
    · rw [if_neg (by simpa using hm)] at heq
      rw [← heq]
      simpa using hm

/-- C7 witness: the merge theorem on a one-customer, one-review, one-file
store. -/
theorem C7_transfer_merge_witness :
    transfer_to_customers (fun p _ => p)
      { customers := [{ id := 7, email := some (("a@b.fr").data) }],
        reviews := [{ id := 3, email := some (("a@b.fr").data),
                      type := ("Doublon - Mail").data }],
        files := [{ id := 1, customer_review_id := some 3,
                    file_path := ("pending/x.png").data }],
        nextCustomerId := 8, nextReviewId := 4 } 3 =
      (some 7,
       { customers := [{ id := 7, email := some (("a@b.fr").data) }],
         reviews := [],
         files := [{ id := 1, customer_id := some 7, customer_review_id := none,
                     file_path := ("pending/x.png").data }],
         nextCustomerId := 8, nextReviewId := 4 }) := by
  have h := C7_transfer_merge (fun p _ => p)
    { customers := [{ id := 7, email := some (("a@b.fr").data) }],
      reviews := [{ id := 3, email := some (("a@b.fr").data),
                    type := ("Doublon - Mail").data }],
      files := [{ id := 1, customer_review_id := some 3,
                  file_path := ("pending/x.png").data }],
      nextCustomerId := 8, nextReviewId := 4 } 3
    { id := 3, email := some (("a@b.fr").data), type := ("Doublon - Mail").data }
    (("a@b.fr").data)
    { id := 7, email := some (("a@b.fr").data) }
    (by decide) (by decide) (by decide) (by decide)
  rw [h.1]
  decide

end SDP

namespace SDP

/-! ### Helper lemmas for the update-with-validation claim -/

theorem revalidate_email_cond_false (p : UpdatePayload) (se : Option (List Char))
    (h : p.email = SVal.absent ∨ p.email.eqOpt se = true) :
    (decide (p.email ≠ SVal.absent) && !(p.email.eqOpt se)) = false := by
  rcases h with h | h
  · simp [h]
  · simp [h]

theorem revalidate_phone_cond_false (p : UpdatePayload) (sp : Option (List Char))
    (h : p.phone = SVal.absent ∨ p.phone.eqOpt sp = true) :
    (decide (p.phone ≠ SVal.absent) && !(p.phone.eqOpt sp)) = false := by
  rcases h with h | h
  · simp [h]
  · simp [h]

theorem revalidate_email_skip (col : Collaborators) (p : UpdatePayload)
    (se sp : Option (List Char))
    (h : p.email = SVal.absent ∨ p.email.eqOpt se = true) :
    (revalidatePayload col p se sp).email = p.email ∧
    (revalidatePayload col p se sp).verified_email = p.verified_email ∧
    (revalidatePayload col p se sp).verified_domain = p.verified_domain := by
  unfold revalidatePayload
  rw [revalidate_email_cond_false p se h]
  simp only [Bool.false_eq_true, if_false]
  by_cases hc : (decide (p.phone ≠ SVal.absent) && !(p.phone.eqOpt sp)) = true
  · rw [if_pos hc]
    cases hp : p.phone with
    | absent => exact ⟨rfl, rfl, rfl⟩
    | null => exact ⟨rfl, rfl, rfl⟩
    | str ph =>
      dsimp only
      by_cases he : ph.isEmpty
      · rw [if_pos he]
        exact ⟨rfl, rfl, rfl⟩
      · rw [if_neg he]
        exact ⟨rfl, rfl, rfl⟩
  · rw [if_neg hc]
    exact ⟨rfl, rfl, rfl⟩

theorem revalidate_email_frame (col col' : Collaborators) (p : UpdatePayload)
    (se sp : Option (List Char))
    (h : p.email = SVal.absent ∨ p.email.eqOpt se = true)
    (hagree : col.verify_phone_number = col'.verify_phone_number) :
    revalidatePayload col p se sp = revalidatePayload col' p se sp := by
  unfold revalidatePayload
  rw [revalidate_email_cond_false p se h, hagree]
  simp only [Bool.false_eq_true, if_false]

theorem revalidate_phone_skip (col : Collaborators) (p : UpdatePayload)
    (se sp : Option (List Char))
    (h : p.phone = SVal.absent ∨ p.phone.eqOpt sp = true) :
    (revalidatePayload col p se sp).phone = p.phone ∧
    (revalidatePayload col p se sp).verified_phone = p.verified_phone := by
  unfold revalidatePayload
  rw [revalidate_phone_cond_false p sp h]
  simp only [Bool.false_eq_true, if_false]
  by_cases hc : (decide (p.email ≠ SVal.absent) && !(p.email.eqOpt se)) = true
  · rw [if_pos hc]
    cases he : p.email with
    | absent => exact ⟨rfl, rfl⟩
    | null => exact ⟨rfl, rfl⟩
    | str e =>
      dsimp only
      by_cases hee : e.isEmpty
      · rw [if_pos hee]
        exact ⟨rfl, rfl⟩
      · rw [if_neg hee]
        generalize correct_email! e = t
        obtain ⟨ce, wc, od⟩ := t
        dsimp only
        cases wc
        · simp only [Bool.false_eq_true, if_false]
          refine ⟨?_, ?_⟩ <;> first | rfl | trivial
        · simp only [if_true]
          refine ⟨?_, ?_⟩ <;> first | rfl | trivial
  · rw [if_neg hc]
    exact ⟨rfl, rfl⟩

theorem revalidate_phone_frame (col col' : Collaborators) (p : UpdatePayload)
    (se sp : Option (List Char))
    (h : p.phone = SVal.absent ∨ p.phone.eqOpt sp = true)
    (hagree1 : col.verify_email_domain = col'.verify_email_domain)
    (hagree2 : col.validate_email_sync = col'.validate_email_sync) :
    revalidatePayload col p se sp = revalidatePayload col' p se sp := by
  unfold revalidatePayload
  rw [revalidate_phone_cond_false p sp h, hagree1, hagree2]
  simp only [Bool.false_eq_true, if_false]

end SDP

namespace SDP

theorem applyS_skip (cur : Option (List Char)) (v : SVal)
    (h : v = SVal.absent ∨ v.eqOpt cur = true) : applyS cur v = cur := by
  rcases h with h | h
  · rw [h]
    rfl
  · cases v with
    | absent => rfl
    | null => rfl
    | str s =>
      cases cur with
      | none => simp [SVal.eqOpt] at h
      | some t =>
        simp only [SVal.eqOpt, decide_eq_true_eq] at h
        subst h
        unfold applyS
        dsimp only
        split <;> rfl

theorem update_customer_email_skip (col col' : Collaborators) (idv : Nat)
    (p : UpdatePayload) (db : DB) (existing : CustomerRow)
    (hfind : db.customers.find? (fun c => c.id = idv) = some existing)
    (huniq : ∀ c ∈ db.customers, c.id = idv → c = existing)
    (hmail : p.email = SVal.absent ∨ p.email.eqOpt existing.email = true)
    (hve : p.verified_email = BVal.absent) (hvd : p.verified_domain = BVal.absent)
    (hagree : col.verify_phone_number = col'.verify_phone_number) :
    update_customer_with_validation col idv p db =
      update_customer_with_validation col' idv p db ∧
    (update_customer_with_validation col idv p db).2.customers.map
        (fun c => (c.email, c.verified_email, c.verified_domain)) =
      db.customers.map (fun c => (c.email, c.verified_email, c.verified_domain)) := by
  constructor
  · unfold update_customer_with_validation
    rw [hfind]
    dsimp only
    rw [revalidate_email_frame col col' p existing.email existing.phone hmail hagree]
  · unfold update_customer_with_validation
    rw [hfind]
    dsimp only
    obtain ⟨hpe, hpve, hpvd⟩ :=
      revalidate_email_skip col p existing.email existing.phone hmail
    set p' := revalidatePayload col p existing.email existing.phone with hp'
    unfold crud_customer_update
    by_cases hk : p'.anyKept
    · rw [if_neg (by simp [hk])]
      dsimp only
      rw [List.map_map]
      apply List.map_congr_left
      intro c hc
      simp only [Function.comp_apply]
      by_cases hcid : c.id = idv
      · rw [if_pos (by simpa using hcid)]
        have hce := huniq c hc hcid
        subst hce
        show (applyS c.email p'.email, applyB c.verified_email p'.verified_email,
          applyB c.verified_domain p'.verified_domain) = _
        rw [hpe, hpve, hpvd, hve, hvd, applyS_skip c.email p.email hmail]
        rfl
      · rw [if_neg (by simpa using hcid)]
    · rw [if_pos (by simp [hk])]

theorem update_customer_phone_skip (col col' : Collaborators) (idv : Nat)
    (p : UpdatePayload) (db : DB) (existing : CustomerRow)
    (hfind : db.customers.find? (fun c => c.id = idv) = some existing)
    (huniq : ∀ c ∈ db.customers, c.id = idv → c = existing)
    (hphone : p.phone = SVal.absent ∨ p.phone.eqOpt existing.phone = true)
    (hvp : p.verified_phone = BVal.absent)
    (hagree1 : col.verify_email_domain = col'.verify_email_domain)
    (hagree2 : col.validate_email_sync = col'.validate_email_sync) :
    update_customer_with_validation col idv p db =
      update_customer_with_validation col' idv p db ∧
    (update_customer_with_validation col idv p db).2.customers.map
        (fun c => (c.phone, c.verified_phone)) =
      db.customers.map (fun c => (c.phone, c.verified_phone)) := by
  constructor
  · unfold update_customer_with_validation
    rw [hfind]
    dsimp only
    rw [revalidate_phone_frame col col' p existing.email existing.phone hphone
      hagree1 hagree2]
  · unfold update_customer_with_validation
    rw [hfind]
    dsimp only
    obtain ⟨hpp, hpvp⟩ :=
      revalidate_phone_skip col p existing.email existing.phone hphone
    set p' := revalidatePayload col p existing.email existing.phone with hp'
    unfold crud_customer_update
    by_cases hk : p'.anyKept
    · rw [if_neg (by simp [hk])]
      dsimp only
      rw [List.map_map]
      apply List.map_congr_left
      intro c hc
      simp only [Function.comp_apply]
      by_cases hcid : c.id = idv
      · rw [if_pos (by simpa using hcid)]
        have hce := huniq c hc hcid
        subst hce
        show (applyS c.phone p'.phone, applyB c.verified_phone p'.verified_phone) = _
        rw [hpp, hpvp, hvp, applyS_skip c.phone p.phone hphone]
        rfl
      · rw [if_neg (by simpa using hcid)]
    · rw [if_pos (by simp [hk])]

theorem update_review_email_skip (col col' : Collaborators) (idv : Nat)
    (p : UpdatePayload) (db : DB) (existing : ReviewRow)
    (hfind : db.reviews.find? (fun r => r.id = idv) = some existing)
    (huniq : ∀ r ∈ db.reviews, r.id = idv → r = existing)
    (hmail : p.email = SVal.absent ∨ p.email.eqOpt existing.email = true)
    (hve : p.verified_email = BVal.absent) (hvd : p.verified_domain = BVal.absent)
    (hagree : col.verify_phone_number = col'.verify_phone_number) :
    update_customer_review_with_validation col idv p db =
      update_customer_review_with_validation col' idv p db ∧
    (update_customer_review_with_validation col idv p db).2.reviews.map
        (fun r => (r.email, r.verified_email, r.verified_domain)) =
      db.reviews.map (fun r => (r.email, r.verified_email, r.verified_domain)) := by
  constructor
  · unfold update_customer_review_with_validation
    rw [hfind]
    dsimp only
    rw [revalidate_email_frame col col' p existing.email existing.phone hmail hagree]
  · unfold update_customer_review_with_validation
    rw [hfind]
    dsimp only
    obtain ⟨hpe, hpve, hpvd⟩ :=
      revalidate_email_skip col p existing.email existing.phone hmail
    set p' := revalidatePayload col p existing.email existing.phone with hp'
    unfold crud_customer_review_update
    by_cases hk : p'.anyKept
    · rw [if_neg (by simp [hk])]
      dsimp only
      rw [List.map_map]
      apply List.map_congr_left
      intro r hr
      simp only [Function.comp_apply]
      by_cases hrid : r.id = idv
      · rw [if_pos (by simpa using hrid)]
        have hre := huniq r hr hrid
        subst hre
        show (applyS r.email p'.email, applyB r.verified_email p'.verified_email,
          applyB r.verified_domain p'.verified_domain) = _
        rw [hpe, hpve, hpvd, hve, hvd, applyS_skip r.email p.email hmail]
        rfl
      · rw [if_neg (by simpa using hrid)]
    · rw [if_pos (by simp [hk])]

theorem update_review_phone_skip (col col' : Collaborators) (idv : Nat)
    (p : UpdatePayload) (db : DB) (existing : ReviewRow)
    (hfind : db.reviews.find? (fun r => r.id = idv) = some existing)
    (huniq : ∀ r ∈ db.reviews, r.id = idv → r = existing)
    (hphone : p.phone = SVal.absent ∨ p.phone.eqOpt existing.phone = true)
    (hvp : p.verified_phone = BVal.absent)
    (hagree1 : col.verify_email_domain = col'.verify_email_domain)
    (hagree2 : col.validate_email_sync = col'.validate_email_sync) :
    update_customer_review_with_validation col idv p db =
      update_customer_review_with_validation col' idv p db ∧
    (update_customer_review_with_validation col idv p db).2.reviews.map
        (fun r => (r.phone, r.verified_phone)) =
      db.reviews.map (fun r => (r.phone, r.verified_phone)) := by
  constructor
  · unfold update_customer_review_with_validation
    rw [hfind]
    dsimp only
    rw [revalidate_phone_frame col col' p existing.email existing.phone hphone
      hagree1 hagree2]
  · unfold update_customer_review_with_validation
    rw [hfind]
    dsimp only
    obtain ⟨hpp, hpvp⟩ :=
      revalidate_phone_skip col p existing.email existing.phone hphone
    set p' := revalidatePayload col p existing.email existing.phone with hp'
    unfold crud_customer_review_update
    by_cases hk : p'.anyKept
    · rw [if_neg (by simp [hk])]
      dsimp only
      rw [List.map_map]
      apply List.map_congr_left
      intro r hr
      simp only [Function.comp_apply]
      by_cases hrid : r.id = idv
      · rw [if_pos (by simpa using hrid)]
        have hre := huniq r hr hrid
        subst hre
        show (applyS r.phone p'.phone, applyB r.verified_phone p'.verified_phone) = _
        rw [hpp, hpvp, hvp, applyS_skip r.phone p.phone hphone]
        rfl
      · rw [if_neg (by simpa using hrid)]
    · rw [if_pos (by simp [hk])]

end SDP

namespace SDP

/-- C9 (counterexample): a payload that omits `email` but carries an explicit
`verified_email` value changes the stored `verified_email` (from `false` to
`true` here), refuting the claim that such an update leaves it unchanged. -/
theorem C9_counterexample :
    ((update_customer_with_validation stubCollaborators 1
        { verified_email := BVal.bool true }
        { customers := [{ id := 1, email := some (("x@y.fr").data),
                          verified_email := some false }] }).2.customers.map
      (fun c => c.verified_email)) = [some true] ∧
    (some true : Option Bool) ≠ some false := by
  refine ⟨by decide, by decide⟩

/-- C9 (amended): for updates of a Customer or ReviewRecord whose payload
omits the email (resp. supplies one equal to the stored value) AND does not
itself carry `verified_email`/`verified_domain` entries, the update performs
no email correction, MX lookup or deliverability check (the outcome is
independent of the email collaborators) and leaves the stored email,
`verified_email` and `verified_domain` columns unchanged; symmetrically for
the phone, the phone-intelligence collaborator is never consulted and
`verified_phone` stays unchanged. -/
theorem C9_update_no_revalidation :
    (∀ (col col' : Collaborators) (idv : Nat) (p : UpdatePayload) (db : DB)
        (existing : CustomerRow),
      db.customers.find? (fun c => c.id = idv) = some existing →
      (∀ c ∈ db.customers, c.id = idv → c = existing) →
      (p.email = SVal.absent ∨ p.email.eqOpt existing.email = true) →
      p.verified_email = BVal.absent → p.verified_domain = BVal.absent →
      col.verify_phone_number = col'.verify_phone_number →
      update_customer_with_validation col idv p db =
        update_customer_with_validation col' idv p db ∧
      (update_customer_with_validation col idv p db).2.customers.map
          (fun c => (c.email, c.verified_email, c.verified_domain)) =
        db.customers.map (fun c => (c.email, c.verified_email, c.verified_domain))) ∧
    (∀ (col col' : Collaborators) (idv : Nat) (p : UpdatePayload) (db : DB)
        (existing : CustomerRow),
      db.customers.find? (fun c => c.id = idv) = some existing →
      (∀ c ∈ db.customers, c.id = idv → c = existing) →
      (p.phone = SVal.absent ∨ p.phone.eqOpt existing.phone = true) →
      p.verified_phone = BVal.absent →
      col.verify_email_domain = col'.verify_email_domain →
      col.validate_email_sync = col'.validate_email_sync →
      update_customer_with_validation col idv p db =
        update_customer_with_validation col' idv p db ∧
      (update_customer_with_validation col idv p db).2.customers.map
          (fun c => (c.phone, c.verified_phone)) =
        db.customers.map (fun c => (c.phone, c.verified_phone))) ∧
    (∀ (col col' : Collaborators) (idv : Nat) (p : UpdatePayload) (db : DB)
        (existing : ReviewRow),
      db.reviews.find? (fun r => r.id = idv) = some existing →
      (∀ r ∈ db.reviews, r.id = idv → r = existing) →
      (p.email = SVal.absent ∨ p.email.eqOpt existing.email = true) →
      p.verified_email = BVal.absent → p.verified_domain = BVal.absent →
      col.verify_phone_number = col'.verify_phone_number →
      update_customer_review_with_validation col idv p db =
        update_customer_review_with_validation col' idv p db ∧
      (update_customer_review_with_validation col idv p db).2.reviews.map
          (fun r => (r.email, r.verified_email, r.verified_domain)) =
        db.reviews.map (fun r => (r.email, r.verified_email, r.verified_domain))) ∧
    (∀ (col col' : Collaborators) (idv : Nat) (p : UpdatePayload) (db : DB)
        (existing : ReviewRow),
      db.reviews.find? (fun r => r.id = idv) = some existing →
      (∀ r ∈ db.reviews, r.id = idv → r = existing) →
      (p.phone = SVal.absent ∨ p.phone.eqOpt existing.phone = true) →
      p.verified_phone = BVal.absent →
      col.verify_email_domain = col'.verify_email_domain →
      col.validate_email_sync = col'.validate_email_sync →
      update_customer_review_with_validation col idv p db =
        update_customer_review_with_validation col' idv p db ∧
      (update_customer_review_with_validation col idv p db).2.reviews.map
          (fun r => (r.phone, r.verified_phone)) =
        db.reviews.map (fun r => (r.phone, r.verified_phone))) := by
  refine ⟨?_, ?_, ?_, ?_⟩
  · intro col col' idv p db existing h1 h2 h3 h4 h5 h6
    exact update_customer_email_skip col col' idv p db existing h1 h2 h3 h4 h5 h6
  · intro col col' idv p db existing h1 h2 h3 h4 h5 h6
    exact update_customer_phone_skip col col' idv p db existing h1 h2 h3 h4 h5 h6
  · intro col col' idv p db existing h1 h2 h3 h4 h5 h6
    exact update_review_email_skip col col' idv p db existing h1 h2 h3 h4 h5 h6
  · intro col col' idv p db existing h1 h2 h3 h4 h5 h6
    exact update_review_phone_skip col col' idv p db existing h1 h2 h3 h4 h5 h6

/-- A second collaborator bundle whose email services answer positively but
whose phone service agrees with `stubCollaborators` — used to witness the
frame property. -/
def okEmailCollaborators : Collaborators :=
  { verify_email_domain := fun _ => (true, ("ok").data),
    validate_email_sync := fun _ => true,
    verify_phone_number := fun _ => none }

/-- C9 witness: the amended theorem at a concrete one-customer store, a
payload editing only `first_name`, and two collaborator bundles that differ
in their email services. -/
theorem C9_update_no_revalidation_witness :
    update_customer_with_validation stubCollaborators 1
        { first_name := SVal.str (("Alice").data) }
        { customers := [{ id := 1, email := some (("x@y.fr").data),
                          verified_email := some false }] } =
      update_customer_with_validation okEmailCollaborators 1
        { first_name := SVal.str (("Alice").data) }
        { customers := [{ id := 1, email := some (("x@y.fr").data),
                          verified_email := some false }] } ∧
    ((update_customer_with_validation stubCollaborators 1
        { first_name := SVal.str (("Alice").data) }
        { customers := [{ id := 1, email := some (("x@y.fr").data),
                          verified_email := some false }] }).2.customers.map
      (fun c => (c.email, c.verified_email, c.verified_domain))) =
      [(some (("x@y.fr").data), some false, none)] := by
  have h := C9_update_no_revalidation.1 stubCollaborators okEmailCollaborators 1
    { first_name := SVal.str (("Alice").data) }
    { customers := [{ id := 1, email := some (("x@y.fr").data),
                      verified_email := some false }] }
    { id := 1, email := some (("x@y.fr").data), verified_email := some false }
    (by decide) (by decide) (Or.inl rfl) rfl rfl rfl
  exact ⟨h.1, by rw [h.2]; decide⟩

end SDP

namespace SDP

theorem fix_punct_no_at (e : List Char) (h : e.contains '@' = false) :
    fix_punctuation e = (e, false) := by
  unfold fix_punctuation
  rw [h]
  rfl

/-- C10: for every input without `@`, `correct_email` returns the string
unchanged, `was_corrected = False`, `original_domain = None`, and does not
raise: the `original_email.split('@')[1]` site is only reached when a
punctuation correction occurred, which requires an `@`. -/
theorem C10_no_at_sign (e : List Char) (h : e.contains '@' = false) :
    correct_email e = .ok (e, false, none) := by
  unfold correct_email
  rw [fix_punct_no_at e h]
  dsimp only
  rw [h]
  rfl

/-- C10 witness: the concrete `@`-less input `"plainaddress"`. -/
theorem C10_no_at_sign_witness :
    correct_email (("plainaddress").data) =
      .ok ((("plainaddress").data), false, none) :=
  C10_no_at_sign (("plainaddress").data) (by decide)

end SDP

namespace SDP

/-! ## C4: idempotence and totality of the email correction -/

end SDP
namespace SDP

/-! ### C4 support: list-level helper lemmas -/

theorem sdp_not_mem_of_contains_false {c : Char} {l : List Char}
    (h : l.contains c = false) : c ∉ l := by
  simp at h; exact h

theorem sdp_contains_false_of_not_mem {c : Char} {l : List Char}
    (h : c ∉ l) : l.contains c = false := by
  cases hc : l.contains c
  · rfl
  · exact absurd (by simpa using hc) h

/-- Decompose a string at the LAST occurrence of `c`. -/
theorem sdp_contains_exists_last (c : Char) :
    ∀ s : List Char, s.contains c = true →
      ∃ a b, s = a ++ c :: b ∧ b.contains c = false
  | [], h => by simp at h
  | x :: t, h => by
    by_cases ht : t.contains c = true
    · obtain ⟨a, b, hab, hb⟩ := sdp_contains_exists_last c t ht
      exact ⟨x :: a, b, by rw [hab, List.cons_append], hb⟩
    · have ht' : t.contains c = false := by
        cases hc : t.contains c
        · rfl
        · exact absurd hc ht
      have hx : x = c := by
        rcases (by simpa using h : c = x ∨ c ∈ t) with h1 | h1
        · exact h1.symm
        · exact absurd h1 (sdp_not_mem_of_contains_false ht')
      exact ⟨[], t, by rw [hx, List.nil_append], ht'⟩

theorem sdp_takeWhile_ne_append (c : Char) (u v : List Char)
    (hu : u.contains c = false) :
    (u ++ v).takeWhile (fun x => x ≠ c) = u ++ v.takeWhile (fun x => x ≠ c) := by
  have h1 : u.takeWhile (fun x => x ≠ c) = u := by
    rw [List.takeWhile_eq_self_iff]
    intro x hx
    have hne : x ≠ c := fun he => sdp_not_mem_of_contains_false hu (he ▸ hx)
    simp [hne]
  rw [List.takeWhile_append, h1]
  simp

/-- `rsplit1` on an explicit last-occurrence decomposition. -/
theorem rsplit1_last (c : Char) (a b : List Char) (hb : b.contains c = false) :
    rsplit1 c (a ++ c :: b) = some (a, b) := by
  have hbrev : b.reverse.contains c = false :=
    sdp_contains_false_of_not_mem (fun hm =>
      sdp_not_mem_of_contains_false hb (List.mem_reverse.1 hm))
  have hrev : (a ++ c :: b).reverse = b.reverse ++ c :: a.reverse := by simp
  have htw : ((a ++ c :: b).reverse).takeWhile (fun x => x ≠ c) = b.reverse := by
    rw [hrev, sdp_takeWhile_ne_append c _ _ hbrev]
    simp [List.takeWhile_cons]
  simp only [rsplit1]
  rw [htw, hrev]
  have hlen : ¬ (b.reverse.length = (b.reverse ++ c :: a.reverse).length) := by
    simp
  rw [if_neg hlen]
  have hdrop : (b.reverse ++ c :: a.reverse).drop (b.reverse.length + 1)
      = a.reverse := by
    rw [List.drop_append]
    simp
  rw [hdrop]
  simp

end SDP
namespace SDP

theorem pySplitAll_ne_nil (sep : Char) : ∀ s : List Char, pySplitAll sep s ≠ []
  | [] => by simp [pySplitAll]
  | c :: rest => by
    simp only [pySplitAll]
    split
    · simp
    · split
      · simp
      · simp

theorem pySplitAll_length_ge_two (sep : Char) :
    ∀ s : List Char, s.contains sep = true → 2 ≤ (pySplitAll sep s).length
  | [], h => by simp at h
  | c :: rest, h => by
    simp only [pySplitAll]
    by_cases hc : c = sep
    · rw [if_pos hc]
      cases hr : pySplitAll sep rest
      · exact absurd hr (pySplitAll_ne_nil sep rest)
      · simp
    · rw [if_neg hc]
      have hrest : rest.contains sep = true := by
        rcases (by simpa using h : sep = c ∨ sep ∈ rest) with h1 | h1
        · exact absurd h1.symm hc
        · simp [h1]
      have ih := pySplitAll_length_ge_two sep rest hrest
      cases hr : pySplitAll sep rest
      · rw [hr] at ih; simp at ih
      · rw [hr] at ih
        simpa using ih

theorem splitAt1_ok (s : List Char) (h : s.contains '@' = true) :
    ∃ d, splitAt1 s = .ok d := by
  have h2 := pySplitAll_length_ge_two '@' s h
  unfold splitAt1
  cases hg : (pySplitAll '@' s).get? 1 with
  | none =>
    have := List.get?_eq_none.1 hg
    omega
  | some x => exact ⟨x, rfl⟩

theorem pyReplace_not_mem_old {o n : Char} (s : List Char) (h : n ≠ o) :
    o ∉ pyReplace o n s := by
  intro hmem
  obtain ⟨c, hc, he⟩ := List.mem_map.1 (by simpa [pyReplace] using hmem)
  by_cases h1 : c = o
  · rw [if_pos h1] at he; exact h he
  · rw [if_neg h1] at he; exact h1 he

theorem pyReplace_not_mem_other {o n x : Char} (s : List Char)
    (hx : x ∉ s) (hn : x ≠ n) : x ∉ pyReplace o n s := by
  intro hmem
  obtain ⟨c, hc, he⟩ := List.mem_map.1 (by simpa [pyReplace] using hmem)
  by_cases h1 : c = o
  · rw [if_pos h1] at he; exact hn he.symm
  · rw [if_neg h1] at he; exact hx (he ▸ hc)

theorem pyReplace_of_not_mem (o n : Char) :
    ∀ s : List Char, o ∉ s → pyReplace o n s = s
  | [], _ => rfl
  | c :: t, h => by
    have hc : c ≠ o := fun he => h (he ▸ List.mem_cons_self c t)
    have ht := pyReplace_of_not_mem o n t (fun hm => h (List.mem_cons_of_mem _ hm))
    simp only [pyReplace, List.map_cons] at ht ⊢
    rw [if_neg hc, ht]

theorem bestStep_foldl_mem (tgt : List Char) (m : Nat) :
    ∀ (cands : List (List Char)) (acc : Option (List Char × Nat))
      (r : List Char × Nat),
      cands.foldl (bestStep tgt m) acc = some r → acc = some r ∨ r.1 ∈ cands
  | [], _, _, h => Or.inl (by simpa using h)
  | cand :: cs, acc, r, h => by
    rw [List.foldl_cons] at h
    rcases bestStep_foldl_mem tgt m cs (bestStep tgt m acc cand) r h with h1 | h1
    · unfold bestStep at h1
      revert h1
      cases acc with
      | none =>
        intro h1
        dsimp only at h1
        split at h1
        · right
          injection h1 with h1
          rw [← h1]
          exact List.mem_cons_self _ _
        · exact absurd h1 (by simp)
      | some p =>
        obtain ⟨bm, bd⟩ := p
        intro h1
        dsimp only at h1
        split at h1
        · right
          injection h1 with h1
          rw [← h1]
          exact List.mem_cons_self _ _
        · exact Or.inl h1
    · exact Or.inr (List.mem_cons_of_mem _ h1)

theorem suggest_domain_mem (d sd : List Char) (h : suggest_domain d = some sd) :
    sd ∈ POPULAR_DOMAINS := by
  simp only [suggest_domain] at h
  split at h
  · exact absurd h (by simp)
  · cases hb : bestCandidate (pyStrip (lowerStr d)) 2 POPULAR_DOMAINS with
    | none => rw [hb] at h; exact absurd h (by simp)
    | some pr =>
      obtain ⟨bm, bd⟩ := pr
      rw [hb] at h
      dsimp only at h
      split at h
      · injection h with h
        rcases bestStep_foldl_mem (pyStrip (lowerStr d)) 2 POPULAR_DOMAINS none
            (bm, bd) (by simpa [bestCandidate] using hb) with h2 | h2
        · exact absurd h2 (by simp)
        · rw [← h]; exact h2
      · exact absurd h (by simp)

theorem suggest_extension_mem (x sx : List Char)
    (h : suggest_extension x = some sx) : sx ∈ POPULAR_EXTENSIONS := by
  simp only [suggest_extension] at h
  split at h
  · exact absurd h (by simp)
  · cases hb : bestCandidate (pyStrip (lowerStr x)) 1 POPULAR_EXTENSIONS with
    | none => rw [hb] at h; exact absurd h (by simp)
    | some pr =>
      obtain ⟨bm, bd⟩ := pr
      rw [hb] at h
      dsimp only at h
      injection h with h
      rcases bestStep_foldl_mem (pyStrip (lowerStr x)) 1 POPULAR_EXTENSIONS none
          (bm, bd) (by simpa [bestCandidate] using hb) with h2 | h2
      · exact absurd h2 (by simp)
      · rw [← h]; exact h2

end SDP
namespace SDP

/-- Étapes 2–3 of `correct_email` viewed as a function of the domain alone:
extension correction followed by whole-domain suggestion. -/
def domainPipe (d : List Char) : List Char :=
  match suggest_domain (ext_step d).1 with
  | some s => s
  | none => (ext_step d).1

/-- Every popular extension maps to itself under `suggest_extension`
(the membership short-circuit). -/
theorem ext_suggest_none :
    ∀ x ∈ POPULAR_EXTENSIONS, suggest_extension x = none := by decide

/-- For the dotted popular extensions (`co.uk`, `com.fr`), the part after the
last dot is also stable under `suggest_extension`. -/
theorem ext_tail_suggest_none :
    ∀ x ∈ POPULAR_EXTENSIONS,
      (match rsplit1 '.' x with
       | some p => decide (suggest_extension p.2 = none)
       | none => true) = true := by decide

/-- Popular extensions contain no `@` nor punctuation to fix. -/
theorem ext_clean :
    ∀ x ∈ POPULAR_EXTENSIONS, x.contains '@' = false ∧ x.contains ',' = false ∧
      x.contains ';' = false ∧ x.contains ':' = false := by decide

/-- Popular domains contain no `@` nor punctuation to fix. -/
theorem popular_clean :
    ∀ p ∈ POPULAR_DOMAINS, p.contains '@' = false ∧ p.contains ',' = false ∧
      p.contains ';' = false ∧ p.contains ':' = false := by decide

set_option maxRecDepth 10000 in
/-- Every popular domain is a fixed point of the domain pipeline (for
`proton.me` the extension step detours through `proton.be` and the
whole-domain step corrects it back). -/
theorem popular_pipe : ∀ p ∈ POPULAR_DOMAINS, domainPipe p = p := by decide

theorem ext_step_snd_false (d : List Char) (h : (ext_step d).2 = false) :
    (ext_step d).1 = d := by
  unfold ext_step at *
  by_cases hc : d.contains '.' = true
  · rw [if_pos hc] at h ⊢
    cases hr : rsplit1 '.' d with
    | none => rfl
    | some pr =>
      obtain ⟨nm, e0⟩ := pr
      rw [hr] at h
      dsimp only at h ⊢
      cases hs : suggest_extension e0 with
      | none => rfl
      | some s1 =>
        rw [hs] at h
        exact Bool.noConfusion h
  · rw [if_neg hc]

theorem ext_step_fired (d : List Char) (h : (ext_step d).2 = true) :
    ∃ name ext0 ext1, d = name ++ '.' :: ext0 ∧ ext0.contains '.' = false ∧
      suggest_extension ext0 = some ext1 ∧
      (ext_step d).1 = name ++ '.' :: ext1 := by
  unfold ext_step at *
  by_cases hc : d.contains '.' = true
  · rw [if_pos hc] at h ⊢
    obtain ⟨a, b, hab, hb⟩ := sdp_contains_exists_last '.' d hc
    have hr : rsplit1 '.' d = some (a, b) := by
      rw [hab]; exact rsplit1_last _ _ _ hb
    rw [hr] at h ⊢
    dsimp only at h ⊢
    cases hs : suggest_extension b with
    | none =>
      rw [hs] at h
      exact Bool.noConfusion h
    | some s1 =>
      exact ⟨a, b, s1, hab, hb, hs, rfl⟩
  · rw [if_neg hc] at h; simp at h

/-- A domain whose final extension is popular is a fixed point of the
extension step. -/
theorem ext_step_stable (name ext1 : List Char) (h1 : ext1 ∈ POPULAR_EXTENSIONS) :
    ext_step (name ++ '.' :: ext1) = (name ++ '.' :: ext1, false) := by
  have hcontains : (name ++ '.' :: ext1).contains '.' = true := by simp
  unfold ext_step
  rw [if_pos hcontains]
  by_cases hdot : ext1.contains '.' = true
  · obtain ⟨x1, x2, hx, hx2⟩ := sdp_contains_exists_last '.' ext1 hdot
    have hr : rsplit1 '.' (name ++ '.' :: ext1) = some (name ++ '.' :: x1, x2) := by
      rw [hx, show name ++ '.' :: (x1 ++ '.' :: x2) = (name ++ '.' :: x1) ++ '.' :: x2
        by simp]
      exact rsplit1_last _ _ _ hx2
    rw [hr]
    have hr' : rsplit1 '.' ext1 = some (x1, x2) := by
      rw [hx]; exact rsplit1_last _ _ _ hx2
    have hfact := ext_tail_suggest_none ext1 h1
    rw [hr'] at hfact
    have hsug : suggest_extension x2 = none := of_decide_eq_true (by
      simpa using hfact)
    dsimp only
    rw [hsug]
  · have hx2 : ext1.contains '.' = false := by
      cases hc2 : ext1.contains '.'
      · rfl
      · exact absurd hc2 hdot
    have hr : rsplit1 '.' (name ++ '.' :: ext1) = some (name, ext1) :=
      rsplit1_last _ _ _ hx2
    rw [hr]
    dsimp only
    rw [ext_suggest_none ext1 h1]

end SDP
namespace SDP

/-- Output shape of `fix_punctuation` on an input containing `@`: the result
decomposes at its last `@` into a local part and a domain free of `@` and of
the three punctuation characters. -/
theorem fix_punct_decomp (e : List Char) (h : e.contains '@' = true) :
    ∃ l d fl, fix_punctuation e = (l ++ '@' :: d, fl) ∧
      d.contains '@' = false ∧ d.contains ',' = false ∧
      d.contains ';' = false ∧ d.contains ':' = false := by
  obtain ⟨a, b, hab, hb⟩ := sdp_contains_exists_last '@' e h
  have hr : rsplit1 '@' e = some (a, b) := by
    rw [hab]; exact rsplit1_last _ _ _ hb
  unfold fix_punctuation
  rw [if_pos h, hr]
  dsimp only
  by_cases hf : (b.contains ',' || (pyReplace ',' '.' b).contains ';'
      || (pyReplace ';' '.' (pyReplace ',' '.' b)).contains ':') = true
  · rw [if_pos hf]
    have hnb : '@' ∉ b := sdp_not_mem_of_contains_false hb
    have h1 : '@' ∉ pyReplace ',' '.' b :=
      pyReplace_not_mem_other _ hnb (by decide)
    have h2 : '@' ∉ pyReplace ';' '.' (pyReplace ',' '.' b) :=
      pyReplace_not_mem_other _ h1 (by decide)
    have h3 : '@' ∉ pyReplace ':' '.' (pyReplace ';' '.' (pyReplace ',' '.' b)) :=
      pyReplace_not_mem_other _ h2 (by decide)
    have hc1 : ',' ∉ pyReplace ',' '.' b := pyReplace_not_mem_old _ (by decide)
    have hc2 : ',' ∉ pyReplace ';' '.' (pyReplace ',' '.' b) :=
      pyReplace_not_mem_other _ hc1 (by decide)
    have hc3 : ',' ∉ pyReplace ':' '.' (pyReplace ';' '.' (pyReplace ',' '.' b)) :=
      pyReplace_not_mem_other _ hc2 (by decide)
    have hs2 : ';' ∉ pyReplace ';' '.' (pyReplace ',' '.' b) :=
      pyReplace_not_mem_old _ (by decide)
    have hs3 : ';' ∉ pyReplace ':' '.' (pyReplace ';' '.' (pyReplace ',' '.' b)) :=
      pyReplace_not_mem_other _ hs2 (by decide)
    have hk3 : ':' ∉ pyReplace ':' '.' (pyReplace ';' '.' (pyReplace ',' '.' b)) :=
      pyReplace_not_mem_old _ (by decide)
    exact ⟨a, _, true, rfl, sdp_contains_false_of_not_mem h3,
      sdp_contains_false_of_not_mem hc3, sdp_contains_false_of_not_mem hs3,
      sdp_contains_false_of_not_mem hk3⟩
  · rw [if_neg hf]
    have hflags : b.contains ',' = false ∧
        (pyReplace ',' '.' b).contains ';' = false ∧
        (pyReplace ';' '.' (pyReplace ',' '.' b)).contains ':' = false := by
      cases hx1 : b.contains ','
      · cases hx2 : (pyReplace ',' '.' b).contains ';'
        · cases hx3 : (pyReplace ';' '.' (pyReplace ',' '.' b)).contains ':'
          · exact ⟨rfl, rfl, rfl⟩
          · exact absurd (by rw [hx1, hx2, hx3]; rfl) hf
        · exact absurd (by rw [hx1, hx2]; rfl) hf
      · exact absurd (by rw [hx1]; rfl) hf
    obtain ⟨hb1, hb2', hb3'⟩ := hflags
    have hd1 : pyReplace ',' '.' b = b :=
      pyReplace_of_not_mem ',' '.' b (sdp_not_mem_of_contains_false hb1)
    rw [hd1] at hb2'
    have hd2 : pyReplace ';' '.' b = b :=
      pyReplace_of_not_mem ';' '.' b (sdp_not_mem_of_contains_false hb2')
    rw [hd1, hd2] at hb3'
    exact ⟨a, b, false, by rw [hab], hb, hb1, hb2', hb3'⟩

end SDP
namespace SDP

/-- The value of `correct_email` once the punctuation stage's output is
decomposed at its last `@`: Étapes 2–3 act on the domain exactly as
`domainPipe`, and no `IndexError` is raised. -/
theorem correct_email_after_punct (e l d : List Char) (fl : Bool)
    (horig : e.contains '@' = true)
    (hfp : fix_punctuation e = (l ++ '@' :: d, fl))
    (hd : d.contains '@' = false) :
    ∃ w x, correct_email e = .ok (l ++ '@' :: domainPipe d, w, x) := by
  obtain ⟨orig1, hsp⟩ := splitAt1_ok e horig
  have hcontains : (l ++ '@' :: d).contains '@' = true := by simp
  unfold correct_email
  rw [hfp]
  rcases hE : ext_step d with ⟨D, fired⟩
  cases hsug : suggest_domain D with
  | some sd =>
    have hDP : domainPipe d = sd := by simp only [domainPipe, hE, hsug]
    refine ⟨true, some orig1, ?_⟩
    cases fired with
    | true =>
      simp only [hcontains, Bool.not_true, Bool.false_eq_true, if_false,
        Bool.or_true, Bool.true_or, Bool.or_false, Bool.false_or,
        rsplit1_last '@' l d hd, hE, hsug, horig, if_true, hsp, hDP]
      rfl
    | false =>
      simp only [hcontains, Bool.not_true, Bool.false_eq_true, if_false,
        Bool.or_true, Bool.true_or, Bool.or_false, Bool.false_or,
        rsplit1_last '@' l d hd, hE, hsug, horig, if_true, hsp, hDP]
      rfl
  | none =>
    have hDP : domainPipe d = D := by simp only [domainPipe, hE, hsug]
    cases fired with
    | true =>
      refine ⟨true, some orig1, ?_⟩
      simp only [hcontains, Bool.not_true, Bool.false_eq_true, if_false,
        Bool.or_true, Bool.true_or, Bool.or_false, Bool.false_or,
        rsplit1_last '@' l d hd, hE, hsug, horig, if_true, hsp, hDP]
      rfl
    | false =>
      have h2 : (ext_step d).2 = false := by rw [hE]
      have h1 : D = d := by
        have h3 := ext_step_snd_false d h2
        rw [hE] at h3
        exact h3
      subst h1
      cases fl with
      | true =>
        refine ⟨true, some orig1, ?_⟩
        simp only [hcontains, Bool.not_true, Bool.false_eq_true, if_false,
          Bool.or_true, Bool.true_or, Bool.or_false, Bool.false_or,
          rsplit1_last '@' l D hd, hE, hsug, horig, if_true, hsp, hDP]
        rfl
      | false =>
        refine ⟨false, none, ?_⟩
        simp only [hcontains, Bool.not_true, Bool.false_eq_true, if_false,
          Bool.or_true, Bool.true_or, Bool.or_false, Bool.false_or,
          rsplit1_last '@' l D hd, hE, hsug, hDP]
        rfl

end SDP
namespace SDP

/-- `correct_email` on an `@`-less input is the identity (no correction, no
original domain, no `IndexError`). -/
theorem correct_email_no_at (e : List Char) (h : e.contains '@' = false) :
    correct_email e = .ok (e, false, none) := by
  unfold correct_email
  rw [fix_punct_no_at e h]
  dsimp only
  rw [h]
  rfl

/-- `correct_email` on an input containing `@` always succeeds, and its
string result is the punctuation-fixed local part with the domain pushed
through `domainPipe`. -/
theorem correct_email_structure (e : List Char) (h : e.contains '@' = true) :
    ∃ l d w x, d.contains '@' = false ∧ d.contains ',' = false ∧
      d.contains ';' = false ∧ d.contains ':' = false ∧
      correct_email e = .ok (l ++ '@' :: domainPipe d, w, x) := by
  obtain ⟨l, d, fl, hfp, h1, h2, h3, h4⟩ := fix_punct_decomp e h
  obtain ⟨w, x, hok⟩ := correct_email_after_punct e l d fl h hfp h1
  exact ⟨l, d, w, x, h1, h2, h3, h4, hok⟩

/-- The domain pipeline preserves freedom from `@` and punctuation. -/
theorem domainPipe_clean (d : List Char)
    (h1 : d.contains '@' = false) (h2 : d.contains ',' = false)
    (h3 : d.contains ';' = false) (h4 : d.contains ':' = false) :
    (domainPipe d).contains '@' = false ∧ (domainPipe d).contains ',' = false ∧
      (domainPipe d).contains ';' = false ∧ (domainPipe d).contains ':' = false := by
  unfold domainPipe
  cases hsug : suggest_domain (ext_step d).1 with
  | some sd => exact popular_clean sd (suggest_domain_mem _ _ hsug)
  | none =>
    cases hfired : (ext_step d).2 with
    | false =>
      rw [ext_step_snd_false d hfired]
      exact ⟨h1, h2, h3, h4⟩
    | true =>
      obtain ⟨name, e0, e1, hdec, he0, hsug1, hfst⟩ := ext_step_fired d hfired
      rw [hfst]
      obtain ⟨k1, k2, k3, k4⟩ := ext_clean e1 (suggest_extension_mem e0 e1 hsug1)
      rw [hdec] at h1 h2 h3 h4
      have hn1 := sdp_not_mem_of_contains_false h1
      have hn2 := sdp_not_mem_of_contains_false h2
      have hn3 := sdp_not_mem_of_contains_false h3
      have hn4 := sdp_not_mem_of_contains_false h4
      simp only [List.mem_append, List.mem_cons, not_or] at hn1 hn2 hn3 hn4
      refine ⟨?_, ?_, ?_, ?_⟩ <;>
        · apply sdp_contains_false_of_not_mem
          simp only [List.mem_append, List.mem_cons, not_or]
          refine ⟨?_, ?_, sdp_not_mem_of_contains_false ?_⟩
          first
          | exact hn1.1
          | exact hn2.1
          | exact hn3.1
          | exact hn4.1
          all_goals first
          | exact hn1.2.1
          | exact hn2.2.1
          | exact hn3.2.1
          | exact hn4.2.1
          | exact k1
          | exact k2
          | exact k3
          | exact k4

/-- The domain pipeline is idempotent. -/
theorem domainPipe_idem (d : List Char) : domainPipe (domainPipe d) = domainPipe d := by
  cases hsug : suggest_domain (ext_step d).1 with
  | some sd =>
    have hD : domainPipe d = sd := by unfold domainPipe; rw [hsug]
    rw [hD]
    exact popular_pipe sd (suggest_domain_mem _ _ hsug)
  | none =>
    have hD : domainPipe d = (ext_step d).1 := by unfold domainPipe; rw [hsug]
    rw [hD]
    have hstable : ext_step ((ext_step d).1) = ((ext_step d).1, false) := by
      cases hfired : (ext_step d).2 with
      | false =>
        have hfst := ext_step_snd_false d hfired
        rw [hfst]
        exact Prod.ext hfst hfired
      | true =>
        obtain ⟨name, e0, e1, hdec, he0, hsug1, hfst⟩ := ext_step_fired d hfired
        rw [hfst]
        exact ext_step_stable name e1 (suggest_extension_mem e0 e1 hsug1)
    unfold domainPipe
    rw [hstable]
    dsimp only
    rw [hsug]

end SDP
namespace SDP

/-- On a clean decomposed input, the punctuation pass is a no-op. -/
theorem fix_punct_clean (l D : List Char)
    (h1 : D.contains '@' = false) (h2 : D.contains ',' = false)
    (h3 : D.contains ';' = false) (h4 : D.contains ':' = false) :
    fix_punctuation (l ++ '@' :: D) = (l ++ '@' :: D, false) := by
  have hcontains : (l ++ '@' :: D).contains '@' = true := by simp
  unfold fix_punctuation
  rw [if_pos hcontains, rsplit1_last '@' l D h1]
  dsimp only
  rw [pyReplace_of_not_mem ',' '.' D (sdp_not_mem_of_contains_false h2),
    pyReplace_of_not_mem ';' '.' D (sdp_not_mem_of_contains_false h3),
    h2, h3, h4]
  rfl

/-- C4: the email correction is total (`correct_email` never evaluates the
`split('@')[1]` expression on an `@`-less string, so the modelled
`IndexError` never occurs) and idempotent on its string result: applying the
three-pass correction twice yields the same email as applying it once. -/
theorem C4_correct_email_idempotent :
    (∀ email : List Char, ∃ r, correct_email email = .ok r) ∧
    (∀ email : List Char,
      correctEmailFst (correctEmailFst email) = correctEmailFst email) := by
  have htotal : ∀ email : List Char, ∃ r, correct_email email = .ok r := by
    intro e
    by_cases h : e.contains '@' = true
    · obtain ⟨l, d, w, x, _, _, _, _, hok⟩ := correct_email_structure e h
      exact ⟨_, hok⟩
    · have h' : e.contains '@' = false := by
        cases hc : e.contains '@' with
        | false => rfl
        | true => exact absurd hc h
      exact ⟨_, correct_email_no_at e h'⟩
  refine ⟨htotal, ?_⟩
  intro e
  by_cases h : e.contains '@' = true
  · obtain ⟨l, d, w, x, h1, h2, h3, h4, hok⟩ := correct_email_structure e h
    have hFe : correctEmailFst e = l ++ '@' :: domainPipe d := by
      unfold correctEmailFst
      rw [hok]
    obtain ⟨k1, k2, k3, k4⟩ := domainPipe_clean d h1 h2 h3 h4
    have hfp2 : fix_punctuation (l ++ '@' :: domainPipe d)
        = (l ++ '@' :: domainPipe d, false) := fix_punct_clean l _ k1 k2 k3 k4
    have hc2 : (l ++ '@' :: domainPipe d).contains '@' = true := by simp
    obtain ⟨w2, x2, hok2⟩ := correct_email_after_punct (l ++ '@' :: domainPipe d)
      l (domainPipe d) false hc2 hfp2 k1
    rw [hFe]
    unfold correctEmailFst
    rw [hok2, domainPipe_idem d]
  · have h' : e.contains '@' = false := by
      cases hc : e.contains '@' with
      | false => rfl
      | true => exact absurd hc h
    have hFe : correctEmailFst e = e := by
      unfold correctEmailFst
      rw [correct_email_no_at e h']
    rw [hFe, hFe]

end SDP
